import Mathlib

/-!
# OpenRCT2 `src/openrct2/core/Crypt.CNG.cpp`

A shallow embedding of the CNG hash backend of OpenRCT2 and of the
preprocessor guard that surrounds it.

* The Windows CNG library (`bcrypt.dll`) and the process heap are external to
  the repository.  They are modelled by an explicit `World`: the live
  algorithm providers, hash objects and heap blocks, a log of every call made
  to the library, and a tape of the statuses the library answers with.
* `CngHashAlgorithm` is the class of the source file; its methods are
  functions from the object and the world to the object, the world and either
  a returned value or a thrown exception.
* The translation unit's conditional-compilation lines are modelled by a small
  line-by-line preprocessor.
-/

namespace OpenRCT2

/-! ## The external library: statuses, handles, calls -/

/-- One octet of input or digest. -/
abbrev Byte := Fin 256

/-- The source's `#define NT_SUCCESS(Status) (((NTSTATUS)(Status)) >= 0)`;
`NTSTATUS` is a signed 32-bit integer, modelled by `Int`. -/
def NT_SUCCESS (status : Int) : Bool := decide (0 ≤ status)

/-- The value `0xC0000008` read as a signed 32-bit `NTSTATUS`: what the library
answers when it is handed a handle it cannot use. -/
def STATUS_INVALID_HANDLE : Int := -1073741816

/-- The value `0x00000020` of `bcrypt.h`. -/
def BCRYPT_HASH_REUSABLE_FLAG : Nat := 32

/-- The conversion `(ULONG)x` of a 64-bit `size_t` to the 32-bit `ULONG`. -/
def toULONG (x : Nat) : Nat := x % 4294967296

/-- What the running system contributes and the class cannot see into: the
platform version query `Platform::IsOSVersionAtLeast` (declared in
`Platform2.h`, not part of this unit), the hash function each algorithm
identifier computes, and the size of the hash object each algorithm needs
(the `BCRYPT_OBJECT_LENGTH` property). -/
structure Platform where
  IsOSVersionAtLeast : Nat → Nat → Nat → Bool
  digest : String → List Byte → List Byte
  objectLength : String → Nat

/-- The calls the class makes to the library and the heap, with the arguments
it passes and what comes back. -/
inductive Call where
  | OpenAlgorithmProvider (algId : String) (flags : Nat) (status : Int) (hAlg : Nat)
  | GetProperty (hAlg : Nat) (status : Int) (value : Nat)
  | HeapAlloc (bytes : Nat) (ptr : Nat)
  | CreateHash (hAlg : Nat) (pbObject : Nat) (cbObject : Nat) (status : Int) (hHash : Nat)
  | HashData (hHash : Nat) (cbInput : Nat) (status : Int)
  | FinishHash (hHash : Nat) (cbOutput : Nat) (status : Int)
  | CloseAlgorithmProvider (hAlg : Nat)
  | DestroyHash (hHash : Nat)
  | HeapFree (ptr : Nat)
  deriving DecidableEq, Repr

/-- An open algorithm provider.  `reusable` records whether it was opened with
`BCRYPT_HASH_REUSABLE_FLAG`. -/
structure Provider where
  handle : Nat
  algId : String
  reusable : Bool
  deriving DecidableEq, Repr

/-- A hash object (hash context): the bytes fed to it so far, and whether it
has been finished for good. -/
structure HashObject where
  handle : Nat
  algId : String
  buffer : Nat
  reusable : Bool
  message : List Byte
  finished : Bool
  deriving DecidableEq, Repr

/-- A block of the process heap. -/
structure Block where
  ptr : Nat
  size : Nat
  deriving DecidableEq, Repr

/-- The state of the library and the heap.  Handles and pointers are drawn
in order: `issued` counts those handed out so far and the next one is
`issued + 1`; the value `0` is the null handle / null pointer.
`tape` lists the statuses the library answers its fallible calls with, in call
order (`0`, `STATUS_SUCCESS`, once the tape is used up); `calls` counts the
fallible calls made so far.  A negative entry is a failure of that call. -/
structure World where
  issued : Nat
  tape : List Int
  calls : Nat
  providers : List Provider
  hashes : List HashObject
  heap : List Block
  log : List Call
  deriving DecidableEq, Repr

/-- A process that has not yet touched the library. -/
def World.boot (tape : List Int) : World :=
  { issued := 0, tape := tape, calls := 0, providers := [], hashes := [], heap := [], log := [] }

/-- The status the library is about to answer with. -/
def World.status (w : World) : Int := w.tape.getD w.calls 0

/-- The status the library will answer with `k` fallible calls from now. -/
def World.statusAt (w : World) (k : Nat) : Int := w.tape.getD (w.calls + k) 0

/-- Record a fallible call: it is logged and uses up one tape entry. -/
def World.answered (w : World) (c : Call) : World :=
  { w with calls := w.calls + 1, log := w.log ++ [c] }

/-- Record a call with no status the class looks at. -/
def World.logged (w : World) (c : Call) : World :=
  { w with log := w.log ++ [c] }

/-- What a library call with an out-parameter gives back: the status, the
value the out-parameter holds afterwards, and the new world. -/
structure Reply (α : Type) where
  status : Int
  value : α
  world : World

/-- The call `BCryptOpenAlgorithmProvider(&hAlg, algId, nullptr, flags)`.
`phAlgorithm` is the value the out-parameter holds before the call; it is left
alone on failure. -/
def BCryptOpenAlgorithmProvider (w : World) (phAlgorithm : Nat) (pszAlgId : String)
    (dwFlags : Nat) : Reply Nat :=
  let s := w.status
  if NT_SUCCESS s then
    let h := w.issued + 1
    let p : Provider :=
      { handle := h, algId := pszAlgId,
        reusable := decide (dwFlags / BCRYPT_HASH_REUSABLE_FLAG % 2 = 1) }
    { status := s, value := h,
      world := { w.answered (.OpenAlgorithmProvider pszAlgId dwFlags s h) with
                 issued := w.issued + 1, providers := p :: w.providers } }
  else
    { status := s, value := phAlgorithm,
      world := w.answered (.OpenAlgorithmProvider pszAlgId dwFlags s 0) }

/-- The call `BCryptGetProperty(hAlg, BCRYPT_OBJECT_LENGTH, &cb, sizeof(DWORD), ..)`.
`pbOutput` is the value of the `DWORD` before the call. -/
def BCryptGetProperty (P : Platform) (w : World) (hObject : Nat) (pbOutput : Nat) : Reply Nat :=
  let s := w.status
  if NT_SUCCESS s then
    match w.providers.find? (fun p => decide (p.handle = hObject)) with
    | some p =>
      let v := toULONG (P.objectLength p.algId)
      { status := s, value := v, world := w.answered (.GetProperty hObject s v) }
    | none =>
      { status := STATUS_INVALID_HANDLE, value := pbOutput,
        world := w.answered (.GetProperty hObject STATUS_INVALID_HANDLE pbOutput) }
  else
    { status := s, value := pbOutput, world := w.answered (.GetProperty hObject s pbOutput) }

/-- The call `HeapAlloc(GetProcessHeap(), 0, dwBytes)`: a fresh block, or null
when the tape says the allocation fails. -/
def HeapAlloc (w : World) (dwBytes : Nat) : Nat × World :=
  let s := w.status
  if NT_SUCCESS s then
    let p := w.issued + 1
    (p, { w.answered (.HeapAlloc dwBytes p) with
          issued := w.issued + 1, heap := { ptr := p, size := dwBytes } :: w.heap })
  else
    (0, w.answered (.HeapAlloc dwBytes 0))

/-- The call `BCryptCreateHash(hAlg, &hHash, pbObject, cbObject, nullptr, 0, 0)`.
The new hash object is reusable exactly when its provider was opened with the
reusable flag. -/
def BCryptCreateHash (w : World) (hAlgorithm : Nat) (phHash : Nat) (pbHashObject : Nat)
    (cbHashObject : Nat) : Reply Nat :=
  let s := w.status
  if NT_SUCCESS s then
    match w.providers.find? (fun p => decide (p.handle = hAlgorithm)) with
    | some p =>
      let h := w.issued + 1
      let o : HashObject :=
        { handle := h, algId := p.algId, buffer := pbHashObject, reusable := p.reusable,
          message := [], finished := false }
      { status := s, value := h,
        world := { w.answered (.CreateHash hAlgorithm pbHashObject cbHashObject s h) with
                   issued := w.issued + 1, hashes := o :: w.hashes } }
    | none =>
      { status := STATUS_INVALID_HANDLE, value := phHash,
        world := w.answered
          (.CreateHash hAlgorithm pbHashObject cbHashObject STATUS_INVALID_HANDLE 0) }
  else
    { status := s, value := phHash,
      world := w.answered (.CreateHash hAlgorithm pbHashObject cbHashObject s 0) }

/-- The call `BCryptHashData(hHash, pbInput, cbInput, 0)`: the first `cbInput`
bytes at `pbInput` are appended to the message of the hash object.  A handle
that names no hash object, or one that has been finished for good, is
refused. -/
def BCryptHashData (w : World) (hHash : Nat) (pbInput : List Byte) (cbInput : Nat) :
    Int × World :=
  let s := w.status
  if NT_SUCCESS s then
    match w.hashes.find? (fun o => decide (o.handle = hHash)) with
    | some o =>
      if o.finished then
        (STATUS_INVALID_HANDLE, w.answered (.HashData hHash cbInput STATUS_INVALID_HANDLE))
      else
        (s, { w.answered (.HashData hHash cbInput s) with
              hashes := w.hashes.map (fun x =>
                if x.handle = hHash then { x with message := x.message ++ pbInput.take cbInput }
                else x) })
    | none =>
      (STATUS_INVALID_HANDLE, w.answered (.HashData hHash cbInput STATUS_INVALID_HANDLE))
  else
    (s, w.answered (.HashData hHash cbInput s))

/-- The call `BCryptFinishHash(hHash, pbOutput, cbOutput, 0)`: the digest of the
message fed so far is written to the output.  A reusable hash object starts
over with an empty message; any other is finished for good and can from then
on only be destroyed. -/
def BCryptFinishHash (P : Platform) (w : World) (hHash : Nat) (cbOutput : Nat) :
    Reply (List Byte) :=
  let s := w.status
  if NT_SUCCESS s then
    match w.hashes.find? (fun o => decide (o.handle = hHash)) with
    | some o =>
      if o.finished then
        { status := STATUS_INVALID_HANDLE, value := [],
          world := w.answered (.FinishHash hHash cbOutput STATUS_INVALID_HANDLE) }
      else
        { status := s, value := P.digest o.algId o.message,
          world := { w.answered (.FinishHash hHash cbOutput s) with
                     hashes := w.hashes.map (fun x =>
                       if x.handle = hHash then
                         (if x.reusable then { x with message := [] }
                          else { x with finished := true })
                       else x) } }
    | none =>
      { status := STATUS_INVALID_HANDLE, value := [],
        world := w.answered (.FinishHash hHash cbOutput STATUS_INVALID_HANDLE) }
  else
    { status := s, value := [], world := w.answered (.FinishHash hHash cbOutput s) }

/-- The call `BCryptCloseAlgorithmProvider(hAlg, 0)`; the class ignores its
status.  Closing a handle that names no provider changes nothing. -/
def BCryptCloseAlgorithmProvider (w : World) (hAlgorithm : Nat) : World :=
  { w.logged (.CloseAlgorithmProvider hAlgorithm) with
    providers := w.providers.filter (fun p => decide (p.handle ≠ hAlgorithm)) }

/-- The call `BCryptDestroyHash(hHash)`; the class ignores its status. -/
def BCryptDestroyHash (w : World) (hHash : Nat) : World :=
  { w.logged (.DestroyHash hHash) with
    hashes := w.hashes.filter (fun o => decide (o.handle ≠ hHash)) }

/-- The call `HeapFree(GetProcessHeap(), 0, p)`; freeing null changes nothing. -/
def HeapFree (w : World) (lpMem : Nat) : World :=
  { w.logged (.HeapFree lpMem) with
    heap := w.heap.filter (fun b => decide (b.ptr ≠ lpMem)) }

/-! ## The class `CngHashAlgorithm<TBase>` -/

/-- The library function named in a `std::runtime_error` message. -/
inductive Api where
  | BCryptOpenAlgorithmProvider
  | BCryptGetProperty
  | BCryptCreateHash
  | BCryptHashData
  | BCryptFinishHash
  deriving DecidableEq, Repr

/-- The exceptions the class throws.  `runtime_error api status` stands for
`std::runtime_error("<api> failed: " + std::to_string(status))`. -/
inductive Exn where
  | runtime_error (api : Api) (status : Int)
  | bad_alloc
  deriving DecidableEq, Repr

/-- How a call of a member function ends. -/
inductive Outcome (α : Type) where
  | returned (v : α)
  | thrown (x : Exn)
  deriving DecidableEq, Repr

/-- The object.  `addr` is the address of the object (the value of `this`);
`resultSize` is `TBase::Result{}.size()`, fixed by the template argument; the
other five are the data members of the source. -/
structure CngHashAlgorithm where
  addr : Nat
  resultSize : Nat
  _algName : String
  _hAlg : Nat
  _hHash : Nat
  _pbHashObject : Nat
  _reusable : Bool
  deriving DecidableEq, Repr

/-- The result of a member function: the world and the object afterwards, and
the value returned or the exception thrown. -/
structure Res (α : Type) where
  world : World
  self : CngHashAlgorithm
  out : Outcome α

namespace CngHashAlgorithm

/-- The member `void Initialise()`. -/
def Initialise (P : Platform) (e : CngHashAlgorithm) (w : World) : Res Unit :=
  let flags := if e._reusable then BCRYPT_HASH_REUSABLE_FLAG else 0
  let r1 := BCryptOpenAlgorithmProvider w e._hAlg e._algName flags
  let e1 := { e with _hAlg := r1.value }
  if !NT_SUCCESS r1.status then
    { world := r1.world, self := e1,
      out := .thrown (.runtime_error .BCryptOpenAlgorithmProvider r1.status) }
  else
    let r2 := BCryptGetProperty P r1.world e1._hAlg 0
    let cbHashObject := r2.value
    if !NT_SUCCESS r2.status then
      { world := r2.world, self := e1,
        out := .thrown (.runtime_error .BCryptGetProperty r2.status) }
    else
      let r3 := HeapAlloc r2.world cbHashObject
      let e3 := { e1 with _pbHashObject := r3.1 }
      if e3._pbHashObject = 0 then
        { world := r3.2, self := e3, out := .thrown .bad_alloc }
      else
        let r4 := BCryptCreateHash r3.2 e3._hAlg e3._hHash e3._pbHashObject cbHashObject
        let e4 := { e3 with _hHash := r4.value }
        if !NT_SUCCESS r4.status then
          { world := r4.world, self := e4,
            out := .thrown (.runtime_error .BCryptCreateHash r4.status) }
        else
          { world := r4.world, self := e4, out := .returned () }

/-- The member `void Dispose()`. -/
def Dispose (e : CngHashAlgorithm) (w : World) : Res Unit :=
  let w1 := BCryptCloseAlgorithmProvider w e._hAlg
  let w2 := BCryptDestroyHash w1 e._hHash
  let w3 := HeapFree w2 e._pbHashObject
  { world := w3, self := { e with _hAlg := 0, _hHash := 0, _pbHashObject := 0 },
    out := .returned () }

/-- The member `TBase * Update(const void * data, size_t dataLen)`.  `data` is
what can be read at the pointer; the returned pointer is `this`. -/
def Update (e : CngHashAlgorithm) (w : World) (data : List Byte) (dataLen : Nat) : Res Nat :=
  let r := BCryptHashData w e._hHash data (toULONG dataLen)
  if !NT_SUCCESS r.1 then
    { world := r.2, self := e, out := .thrown (.runtime_error .BCryptHashData r.1) }
  else
    { world := r.2, self := e, out := .returned e.addr }

/-- The member `typename TBase::Result Finish()`. -/
def Finish (P : Platform) (e : CngHashAlgorithm) (w : World) : Res (List Byte) :=
  let r := BCryptFinishHash P w e._hHash (toULONG e.resultSize)
  if !NT_SUCCESS r.status then
    { world := r.world, self := e, out := .thrown (.runtime_error .BCryptFinishHash r.status) }
  else
    { world := r.world, self := e, out := .returned r.value }

/-- The member `TBase * Clear()`.  An exception thrown by `Finish` or by
`Initialise` leaves `Clear` as it is. -/
def Clear (P : Platform) (e : CngHashAlgorithm) (w : World) : Res Nat :=
  if e._reusable then
    let r := Finish P e w
    match r.out with
    | .thrown x => { world := r.world, self := r.self, out := .thrown x }
    | .returned _ => { world := r.world, self := r.self, out := .returned r.self.addr }
  else
    let d := Dispose e w
    let r := Initialise P d.self d.world
    match r.out with
    | .thrown x => { world := r.world, self := r.self, out := .thrown x }
    | .returned _ => { world := r.world, self := r.self, out := .returned r.self.addr }

/-- The constructor `CngHashAlgorithm(const wchar_t * algName)`, for an object
placed at `addr`.  The handle members start out null (`{}`).  When
`Initialise` throws, the exception leaves the constructor; the object never
came to exist, so its destructor does not run. -/
def create (P : Platform) (w : World) (addr resultSize : Nat) (algName : String) :
    World × Outcome CngHashAlgorithm :=
  let e : CngHashAlgorithm :=
    { addr := addr, resultSize := resultSize, _algName := algName,
      _hAlg := 0, _hHash := 0, _pbHashObject := 0,
      _reusable := P.IsOSVersionAtLeast 6 2 0 }
  let r := Initialise P e w
  match r.out with
  | .thrown x => (r.world, .thrown x)
  | .returned _ => (r.world, .returned r.self)

/-- The destructor `~CngHashAlgorithm()`. -/
def destroy (e : CngHashAlgorithm) (w : World) : Res Unit :=
  Dispose e w

end CngHashAlgorithm

/-! ## The factory functions of `namespace Hash` -/

namespace Hash

/-- Modelled from the spec: `Sha1Algorithm::Result` (declared in `Crypt.h`,
which is not part of this unit) holds a 20-byte digest. -/
def Sha1ResultSize : Nat := 20

/-- Modelled from the spec: `Sha256Algorithm::Result` (declared in `Crypt.h`)
holds a 32-byte digest. -/
def Sha256ResultSize : Nat := 32

/-- The wide string `BCRYPT_SHA1_ALGORITHM` of `bcrypt.h`. -/
def BCRYPT_SHA1_ALGORITHM : String := "SHA1"

/-- The wide string `BCRYPT_SHA256_ALGORITHM` of `bcrypt.h`. -/
def BCRYPT_SHA256_ALGORITHM : String := "SHA256"

/-- The function `Hash::CreateSHA1()`; `addr` is where `make_unique` places the
object. -/
def CreateSHA1 (P : Platform) (w : World) (addr : Nat) : World × Outcome CngHashAlgorithm :=
  CngHashAlgorithm.create P w addr Sha1ResultSize BCRYPT_SHA1_ALGORITHM

/-- The function `Hash::CreateSHA256()`. -/
def CreateSHA256 (P : Platform) (w : World) (addr : Nat) : World × Outcome CngHashAlgorithm :=
  CngHashAlgorithm.create P w addr Sha256ResultSize BCRYPT_SHA256_ALGORITHM

end Hash

/-! ## Callers: sequences of calls on one object -/

/-- One call of a public member function. -/
inductive Op where
  | Update (data : List Byte) (dataLen : Nat)
  | Finish
  | Clear
  deriving DecidableEq, Repr

/-- Make one call; an exception is caught by the caller, who goes on with the
object as the call left it. -/
def Op.run (P : Platform) (o : Op) (s : CngHashAlgorithm × World) : CngHashAlgorithm × World :=
  match o with
  | .Update data dataLen => let r := s.1.Update s.2 data dataLen; (r.self, r.world)
  | .Finish => let r := s.1.Finish P s.2; (r.self, r.world)
  | .Clear => let r := s.1.Clear P s.2; (r.self, r.world)

/-- Make the calls of `ops` one after the other. -/
def runOps (P : Platform) (ops : List Op) (s : CngHashAlgorithm × World) :
    CngHashAlgorithm × World :=
  ops.foldl (fun s o => o.run P s) s

/-- The rest of an object's life: the calls of `ops`, then its destruction. -/
def lifetime (P : Platform) (ops : List Op) (e : CngHashAlgorithm) (w : World) : Res Unit :=
  (runOps P ops (e, w)).1.destroy (runOps P ops (e, w)).2

/-- Feed the pieces `chunks` one `Update` each, every piece with its own
length; the first exception ends the run. -/
def updateAll (e : CngHashAlgorithm) (w : World) : List (List Byte) → Res Nat
  | [] => { world := w, self := e, out := .returned e.addr }
  | c :: cs =>
    let r := e.Update w c c.length
    match r.out with
    | .thrown x => { world := r.world, self := r.self, out := .thrown x }
    | .returned _ => updateAll r.self r.world cs

/-- The calls `Update(S); Finish()` on an object, `S` passed with its own
length: what the `Finish` gives. -/
def hashOnce (P : Platform) (e : CngHashAlgorithm) (w : World) (S : List Byte) :
    Res (List Byte) :=
  let a := e.Update w S S.length
  match a.out with
  | .thrown x => { world := a.world, self := a.self, out := .thrown x }
  | .returned _ => a.self.Finish P a.world

/-- The calls `Update(S1); Finish(); Clear(); Update(S2); Finish()` on an
object: what the last `Finish` gives. -/
def reuseRun (P : Platform) (e : CngHashAlgorithm) (w : World) (S1 S2 : List Byte) :
    Res (List Byte) :=
  let a := hashOnce P e w S1
  match a.out with
  | .thrown x => { world := a.world, self := a.self, out := .thrown x }
  | .returned _ =>
    let c := a.self.Clear P a.world
    match c.out with
    | .thrown x => { world := c.world, self := c.self, out := .thrown x }
    | .returned _ => hashOnce P c.self c.world S2

/-- A freshly constructed object running `Update(S); Finish()`. -/
def freshHash (P : Platform) (w : World) (addr resultSize : Nat) (algName : String)
    (S : List Byte) : Outcome (List Byte) :=
  match CngHashAlgorithm.create P w addr resultSize algName with
  | (_, .thrown x) => .thrown x
  | (w1, .returned e) => (hashOnce P e w1 S).out

/-- A freshly constructed object running `Update(S1) ... Update(Sk); Finish()`. -/
def freshChunked (P : Platform) (w : World) (addr resultSize : Nat) (algName : String)
    (chunks : List (List Byte)) : Outcome (List Byte) :=
  match CngHashAlgorithm.create P w addr resultSize algName with
  | (_, .thrown x) => .thrown x
  | (w1, .returned e) =>
    let a := updateAll e w1 chunks
    match a.out with
    | .thrown x => .thrown x
    | .returned _ => (a.self.Finish P a.world).out

/-- Call `Clear` `n` times; the first exception ends the run.  The value is
the list of pointers the calls returned. -/
def clearTimes (P : Platform) (e : CngHashAlgorithm) (w : World) : Nat → Res (List Nat)
  | 0 => { world := w, self := e, out := .returned [] }
  | n + 1 =>
    let r := e.Clear P w
    match r.out with
    | .thrown x => { world := r.world, self := r.self, out := .thrown x }
    | .returned p =>
      let t := clearTimes P r.self r.world n
      match t.out with
      | .thrown x => { world := t.world, self := t.self, out := .thrown x }
      | .returned ps => { world := t.world, self := t.self, out := .returned (p :: ps) }

/-- The kinds of resource an object owns. -/
inductive Kind where
  | provider
  | context
  | buffer
  deriving DecidableEq, Repr

/-- The resource a call handed out, if it handed one out. -/
def Call.acquires : Call → Option (Kind × Nat)
  | .OpenAlgorithmProvider _ _ s h => if NT_SUCCESS s then some (.provider, h) else none
  | .HeapAlloc _ p => if p = 0 then none else some (.buffer, p)
  | .CreateHash _ _ _ s h => if NT_SUCCESS s then some (.context, h) else none
  | _ => none

/-- The value a call passed to a release function, if it is such a call. -/
def Call.releases : Call → Option (Kind × Nat)
  | .CloseAlgorithmProvider h => some (.provider, h)
  | .DestroyHash h => some (.context, h)
  | .HeapFree p => some (.buffer, p)
  | _ => none

/-- Everything a log shows to have been acquired, in order. -/
def acquired (log : List Call) : List (Kind × Nat) := log.filterMap Call.acquires

/-- Every value a log shows to have been passed to a release function. -/
def released (log : List Call) : List (Kind × Nat) := log.filterMap Call.releases

/-- The value an object holds for a kind of resource. -/
def CngHashAlgorithm.held (e : CngHashAlgorithm) : Kind → Nat
  | .provider => e._hAlg
  | .context => e._hHash
  | .buffer => e._pbHashObject

/-- The books are in order: every resource the log shows acquired carries a
handle the counter has handed out; it has been passed to its release function
once, or not yet if the object still holds it; nothing but null or an acquired
resource was ever passed to a release function; and what the object holds is
null or acquired. -/
structure Tidy (e : CngHashAlgorithm) (w : World) : Prop where
  fresh : ∀ k h, (k, h) ∈ acquired w.log → 0 < h ∧ h ≤ w.issued
  once : ∀ k h, (k, h) ∈ acquired w.log →
    (released w.log).count (k, h) = if e.held k = h then 0 else 1
  known : ∀ k h, (k, h) ∈ released w.log → h = 0 ∨ (k, h) ∈ acquired w.log
  owned : ∀ k, e.held k = 0 ∨ (k, e.held k) ∈ acquired w.log

/-- No entry of the tape is a failure: every call the library can serve, it
serves. -/
def World.FaultFree (w : World) : Prop := ∀ s ∈ w.tape, 0 ≤ s

instance (w : World) : Decidable w.FaultFree := by
  unfold World.FaultFree
  infer_instance

/-- The object's hash handle names a hash object that takes input, has been
fed exactly `m` so far, and was created for the object's algorithm under the
object's reusable flag. -/
def CngHashAlgorithm.Accepting (e : CngHashAlgorithm) (w : World) (m : List Byte) : Prop :=
  ∃ o, w.hashes.find? (fun o => decide (o.handle = e._hHash)) = some o ∧
    o.message = m ∧ o.finished = false ∧ o.reusable = e._reusable ∧ o.algId = e._algName

/-- The object's hash handle names a hash object that has been finished for
good. -/
def CngHashAlgorithm.Closed (e : CngHashAlgorithm) (w : World) : Prop :=
  ∃ o, w.hashes.find? (fun o => decide (o.handle = e._hHash)) = some o ∧ o.finished = true

/-- The names the specification gives to failures. -/
inductive ErrorKind where
  | ProviderOpenError
  | AllocationError
  | ContextCreateError
  | AccumulationError
  | ExtractionError
  deriving DecidableEq, Repr

/-- The specification's name for an exception of the class, by the step that
throws it.  The exception thrown when the object-length query fails has no
name in the specification. -/
def Exn.kind : Exn → Option ErrorKind
  | .runtime_error .BCryptOpenAlgorithmProvider _ => some .ProviderOpenError
  | .runtime_error .BCryptGetProperty _ => none
  | .bad_alloc => some .AllocationError
  | .runtime_error .BCryptCreateHash _ => some .ContextCreateError
  | .runtime_error .BCryptHashData _ => some .AccumulationError
  | .runtime_error .BCryptFinishHash _ => some .ExtractionError

/-! ## The conditional compilation of the unit -/

/-- The controlling expression of an `#if`. -/
inductive PPExpr where
  | defined (name : String)
  | not (e : PPExpr)
  | and (a b : PPExpr)
  deriving DecidableEq, Repr

/-- Evaluate a controlling expression against the names defined so far. -/
def PPExpr.eval (defs : List String) : PPExpr → Bool
  | .defined name => decide (name ∈ defs)
  | .not e => !(e.eval defs)
  | .and a b => a.eval defs && b.eval defs

/-- A line of the unit, as the preprocessor sees it. -/
inductive Line where
  | ppIf (c : PPExpr)
  | ppIfDefined (name : String)
  | ppEndIf
  | ppDefine (name : String)
  | ppUndefine (name : String)
  | ppInclude (file : String)
  | declares (what : String)
  deriving DecidableEq, Repr

/-- The preprocessor's state: the names defined, one entry per open
conditional saying whether its group is kept, and what the unit has
contributed so far (files included, entities declared). -/
structure PP where
  defs : List String
  groups : List Bool
  includes : List String
  decls : List String
  deriving DecidableEq, Repr

/-- Lines are kept only when every enclosing group is kept. -/
def PP.active (s : PP) : Bool := s.groups.all id

/-- Process one line. -/
def PP.step (s : PP) : Line → PP
  | .ppIf c => { s with groups := (s.active && c.eval s.defs) :: s.groups }
  | .ppIfDefined name => { s with groups := (s.active && decide (name ∈ s.defs)) :: s.groups }
  | .ppEndIf => { s with groups := s.groups.tail }
  | .ppDefine name => if s.active then { s with defs := name :: s.defs } else s
  | .ppUndefine name =>
    if s.active then { s with defs := s.defs.filter (fun d => decide (d ≠ name)) } else s
  | .ppInclude file => if s.active then { s with includes := s.includes ++ [file] } else s
  | .declares what => if s.active then { s with decls := s.decls ++ [what] } else s

/-- Process the lines of a unit, starting with the names `predefined` (by the
compiler or on its command line). -/
def preprocess (predefined : List String) (unit : List Line) : PP :=
  unit.foldl PP.step { defs := predefined, groups := [], includes := [], decls := [] }

/-- Lines 17 to 23 of `Crypt.CNG.cpp`: everything before the body of the
guard `#ifdef __USE_CNG__`. -/
def CryptCNG_head : List Line :=
  [ .ppIf (.and (.defined "_WIN32") (.not (.defined "__USE_OPENSSL__"))),
    .ppDefine "__USE_CNG__",
    .ppEndIf,
    .ppUndefine "__USE_CNG__" ]

/-- Lines 23 to 154 of `Crypt.CNG.cpp`: the guard and what it encloses. -/
def CryptCNG_guarded : List Line :=
  [ .ppIfDefined "__USE_CNG__",
    .ppInclude "Crypt.h",
    .ppInclude "../platform/Platform2.h",
    .ppInclude "stdexcept",
    .ppInclude "string",
    .ppDefine "WIN32_LEAN_AND_MEAN",
    .ppInclude "windows.h",
    .ppInclude "bcrypt.h",
    .ppDefine "NT_SUCCESS",
    .declares "CngHashAlgorithm",
    .declares "Hash::CreateSHA1",
    .declares "Hash::CreateSHA256",
    .ppEndIf ]

/-- The unit `Crypt.CNG.cpp`. -/
def CryptCNG : List Line := CryptCNG_head ++ CryptCNG_guarded

/-! ## Sample platforms and inputs -/

/-- A sample platform at or above Windows 8, on which any version query
succeeds.  Its "hash function" gives back the message itself, so that
different messages are told apart. -/
def win8 : Platform :=
  { IsOSVersionAtLeast := fun _ _ _ => true,
    digest := fun _ m => m,
    objectLength := fun _ => 326 }

/-- A sample platform below Windows 8, on which any version query fails. -/
def win7 : Platform :=
  { IsOSVersionAtLeast := fun _ _ _ => false,
    digest := fun _ m => m,
    objectLength := fun _ => 326 }

/-- The world after a SHA-1 object has been constructed at address 100 in a
fresh process of `win7`. -/
def win7World : World := (CngHashAlgorithm.create win7 (World.boot []) 100 20 "SHA1").1

/-- The object constructed in `win7World`. -/
def win7Object : CngHashAlgorithm :=
  { addr := 100, resultSize := 20, _algName := "SHA1",
    _hAlg := 1, _hHash := 3, _pbHashObject := 2, _reusable := false }

/-- The world after a SHA-256 object has been constructed at address 100 in a
fresh process of `win8`. -/
def win8World : World := (CngHashAlgorithm.create win8 (World.boot []) 100 32 "SHA256").1

/-- The object constructed in `win8World`. -/
def win8Object : CngHashAlgorithm :=
  { addr := 100, resultSize := 32, _algName := "SHA256",
    _hAlg := 1, _hHash := 3, _pbHashObject := 2, _reusable := true }

/-- A tape on which the eighth call fails: construction (four calls), one
`Update` and one `Finish` succeed, and the `Clear` that follows fails in
`Initialise`, at the object-length query. -/
def faultyTape : List Int := [0, 0, 0, 0, 0, 0, 0, -5]

/-- A caller that hashes, clears (and has `Clear` throw), goes on regardless
and clears again. -/
def faultyCalls : List Op := [.Update [1, 2] 2, .Finish, .Clear, .Update [3] 1, .Clear]

/-- A buffer of 2^31 zero bytes. -/
def halfBuffer : List Byte := List.replicate 2147483648 0

/-! ## Facts about the library model -/

open CngHashAlgorithm

theorem status_ok (w : World) (h : w.FaultFree) : NT_SUCCESS w.status = true := by
  have h0 : (0 : Int) ≤ w.tape.getD w.calls 0 := by
    rw [List.getD_eq_getElem?_getD]
    cases hg : w.tape[w.calls]? with
    | none => simp
    | some s => exact h s (List.getElem?_mem hg)
  simpa [NT_SUCCESS, World.status] using h0

theorem find_map_handle (l : List HashObject) (h : Nat) (f : HashObject → HashObject)
    (hf : ∀ x, (f x).handle = x.handle) :
    (l.map f).find? (fun o => decide (o.handle = h))
      = (l.find? (fun o => decide (o.handle = h))).map f := by
  induction l with
  | nil => rfl
  | cons a t ih =>
    by_cases ha : a.handle = h
    · simp [List.find?, hf, ha]
    · simp [List.find?, hf, ha, ih]

theorem update_accepting (e : CngHashAlgorithm) (w : World) (m data : List Byte) (dataLen : Nat)
    (hw : w.FaultFree) (ha : e.Accepting w m) :
    (e.Update w data dataLen).out = .returned e.addr ∧
    (e.Update w data dataLen).self = e ∧
    (e.Update w data dataLen).world.tape = w.tape ∧
    e.Accepting (e.Update w data dataLen).world (m ++ data.take (toULONG dataLen)) := by
  obtain ⟨o, hfind, hm, hfin, hr, halg⟩ := ha
  have hs := status_ok w hw
  have hho : o.handle = e._hHash := by
    have := List.find?_some hfind
    simpa using this
  simp only [Update, BCryptHashData, hs, hfind, hfin, Accepting]
  simp [hs, World.answered, -List.find?_map]
  rw [find_map_handle _ _ _ (by intro x; split <;> rfl), hfind]
  simp [hho, hm, hfin, hr, halg]

theorem finish_accepting (P : Platform) (e : CngHashAlgorithm) (w : World) (m : List Byte)
    (hw : w.FaultFree) (ha : e.Accepting w m) :
    (e.Finish P w).out = .returned (P.digest e._algName m) ∧
    (e.Finish P w).self = e ∧
    (e.Finish P w).world.tape = w.tape ∧
    (e._reusable = true → e.Accepting (e.Finish P w).world []) ∧
    (e._reusable = false → e.Closed (e.Finish P w).world) := by
  obtain ⟨o, hfind, hm, hfin, hr, halg⟩ := ha
  have hs := status_ok w hw
  have hho : o.handle = e._hHash := by
    have := List.find?_some hfind
    simpa using this
  simp only [Finish, BCryptFinishHash, hs, hfind, hfin, Accepting, Closed]
  simp [hs, World.answered, hm, halg, -List.find?_map]
  rw [find_map_handle _ _ _ (by intro x; split <;> [split <;> rfl; rfl]), hfind]
  constructor
  · intro h; simp [hho, hr, h, hfin, halg]
  · intro h; simp [hho, hr, h]

theorem tape_ok (w : World) (h : w.FaultFree) (k : Nat) :
    NT_SUCCESS (w.tape.getD k 0) = true :=
  status_ok { w with calls := k } h

theorem initialise_ok (P : Platform) (e : CngHashAlgorithm) (w : World) (hw : w.FaultFree) :
    (e.Initialise P w).out = .returned () ∧
    (e.Initialise P w).self =
      { e with _hAlg := w.issued + 1, _pbHashObject := w.issued + 2, _hHash := w.issued + 3 } ∧
    (e.Initialise P w).world.tape = w.tape ∧
    (e.Initialise P w).self.Accepting (e.Initialise P w).world [] := by
  have h0 := tape_ok w hw w.calls
  have h1 := tape_ok w hw (w.calls + 1)
  have h2 := tape_ok w hw (w.calls + 2)
  have h3 := tape_ok w hw (w.calls + 3)
  simp only [List.getD_eq_getElem?_getD] at h0 h1 h2 h3
  cases hr : e._reusable <;>
  simp [Initialise, BCryptOpenAlgorithmProvider, BCryptGetProperty, HeapAlloc, BCryptCreateHash,
    World.answered, World.status, h0, h1, h2, h3, hr, Accepting, BCRYPT_HASH_REUSABLE_FLAG]

theorem dispose_tape (e : CngHashAlgorithm) (w : World) :
    (e.Dispose w).world.tape = w.tape := by
  simp [Dispose, BCryptCloseAlgorithmProvider, BCryptDestroyHash, HeapFree, World.logged]

theorem create_ok (P : Platform) (w : World) (addr resultSize : Nat) (algName : String)
    (hw : w.FaultFree) :
    ∃ e w1, create P w addr resultSize algName = (w1, .returned e) ∧ w1.FaultFree ∧
      e.Accepting w1 [] ∧ e.addr = addr ∧ e._algName = algName ∧
      e._reusable = P.IsOSVersionAtLeast 6 2 0 := by
  have h := initialise_ok P
    { addr := addr, resultSize := resultSize, _algName := algName,
      _hAlg := 0, _hHash := 0, _pbHashObject := 0,
      _reusable := P.IsOSVersionAtLeast 6 2 0 } w hw
  obtain ⟨hout, hself, htape, hacc⟩ := h
  refine ⟨_, _, ?_, ?_, hacc, ?_, ?_, ?_⟩
  · simp only [create, hout]
  · intro s hs
    exact hw s (htape ▸ hs)
  · rw [hself]
  · rw [hself]
  · rw [hself]

theorem clear_fast (P : Platform) (e : CngHashAlgorithm) (w : World) (m : List Byte)
    (hw : w.FaultFree) (hr : e._reusable = true) (ha : e.Accepting w m) :
    (e.Clear P w).out = .returned e.addr ∧ (e.Clear P w).self = e ∧
    (e.Clear P w).world.FaultFree ∧ e.Accepting (e.Clear P w).world [] := by
  obtain ⟨hout, hself, htape, hacc, _⟩ := finish_accepting P e w m hw ha
  simp only [Clear, hr, if_true, hout, hself]
  refine ⟨trivial, trivial, ?_, hacc hr⟩
  intro s hs
  exact hw s (htape ▸ hs)

theorem clear_slow (P : Platform) (e : CngHashAlgorithm) (w : World)
    (hw : w.FaultFree) (hr : e._reusable = false) :
    (e.Clear P w).out = .returned e.addr ∧
    (e.Clear P w).self.addr = e.addr ∧
    (e.Clear P w).self._algName = e._algName ∧
    (e.Clear P w).self._reusable = false ∧
    (e.Clear P w).world.FaultFree ∧
    (e.Clear P w).self.Accepting (e.Clear P w).world [] := by
  have hd : (e.Dispose w).world.FaultFree := by
    intro s hs
    exact hw s (dispose_tape e w ▸ hs)
  obtain ⟨hout, hself, htape, hacc⟩ := initialise_ok P (e.Dispose w).self (e.Dispose w).world hd
  simp only [Clear, hr, hout]
  refine ⟨?_, ?_, ?_, ?_, ?_, hacc⟩
  · rw [hself]; rfl
  · rw [hself]; rfl
  · rw [hself]; rfl
  · rw [hself]; exact hr
  · intro s hs
    exact hd s (htape ▸ hs)

theorem hashOnce_accepting (P : Platform) (e : CngHashAlgorithm) (w : World) (m S : List Byte)
    (hw : w.FaultFree) (ha : e.Accepting w m) :
    (hashOnce P e w S).out = .returned (P.digest e._algName (m ++ S.take (toULONG S.length))) ∧
    (hashOnce P e w S).self = e ∧
    (hashOnce P e w S).world.FaultFree ∧
    (e._reusable = true → e.Accepting (hashOnce P e w S).world []) ∧
    (e._reusable = false → e.Closed (hashOnce P e w S).world) := by
  obtain ⟨hout, hself, htape, hacc⟩ := update_accepting e w m S S.length hw ha
  have hw1 : (e.Update w S S.length).world.FaultFree := by
    intro s hs
    exact hw s (htape ▸ hs)
  simp only [hashOnce, hout, hself]
  obtain ⟨fout, fself, ftape, facc, fcl⟩ :=
    finish_accepting P e (e.Update w S S.length).world _ hw1 hacc
  refine ⟨fout, fself, ?_, facc, fcl⟩
  intro s hs
  exact hw1 s (ftape ▸ hs)

theorem freshHash_ok (P : Platform) (w : World) (addr resultSize : Nat) (algName : String)
    (S : List Byte) (hw : w.FaultFree) :
    freshHash P w addr resultSize algName S
      = .returned (P.digest algName (S.take (toULONG S.length))) := by
  obtain ⟨e, w1, hc, hw1, hacc, _, halg, _⟩ := create_ok P w addr resultSize algName hw
  obtain ⟨hout, _⟩ := hashOnce_accepting P e w1 [] S hw1 hacc
  simp only [freshHash, hc, hout, halg, List.nil_append]

theorem clear_ready (P : Platform) (e : CngHashAlgorithm) (w : World) (m : List Byte)
    (hw : w.FaultFree) (h : (e._reusable = true ∧ e.Accepting w m) ∨ e._reusable = false) :
    (e.Clear P w).out = .returned e.addr ∧
    (e.Clear P w).self.addr = e.addr ∧
    (e.Clear P w).self._algName = e._algName ∧
    (e.Clear P w).self._reusable = e._reusable ∧
    (e.Clear P w).world.FaultFree ∧
    (e.Clear P w).self.Accepting (e.Clear P w).world [] := by
  rcases h with ⟨hr, ha⟩ | hr
  · obtain ⟨h1, h2, h3, h4⟩ := clear_fast P e w m hw hr ha
    refine ⟨h1, ?_, ?_, ?_, h3, ?_⟩
    · rw [h2]
    · rw [h2]
    · rw [h2]
    · rw [h2]; exact h4
  · obtain ⟨h1, h2, h3, h4, h5, h6⟩ := clear_slow P e w hw hr
    exact ⟨h1, h2, h3, by rw [h4, hr], h5, h6⟩

theorem reuseRun_ok (P : Platform) (e : CngHashAlgorithm) (w : World) (S1 S2 : List Byte)
    (hw : w.FaultFree) (ha : e.Accepting w []) :
    (reuseRun P e w S1 S2).out
      = .returned (P.digest e._algName (S2.take (toULONG S2.length))) := by
  obtain ⟨hout, hself, hw1, hacc, _⟩ := hashOnce_accepting P e w [] S1 hw ha
  have hc := clear_ready P e (hashOnce P e w S1).world [] hw1 (by
    cases hr : e._reusable
    · exact Or.inr rfl
    · exact Or.inl ⟨rfl, hacc hr⟩)
  obtain ⟨cout, _, calg, _, cw, cacc⟩ := hc
  obtain ⟨h2, _⟩ := hashOnce_accepting P _ _ [] S2 cw cacc
  simp only [reuseRun, hout, hself, cout, h2, calg, List.nil_append]

theorem clearTimes_ready (P : Platform) (n : Nat) (e : CngHashAlgorithm) (w : World)
    (hw : w.FaultFree) (ha : e.Accepting w []) :
    (clearTimes P e w n).out = .returned (List.replicate n e.addr) ∧
    (clearTimes P e w n).self.addr = e.addr ∧
    (clearTimes P e w n).self._algName = e._algName ∧
    (clearTimes P e w n).self._reusable = e._reusable ∧
    (clearTimes P e w n).world.FaultFree ∧
    (clearTimes P e w n).self.Accepting (clearTimes P e w n).world [] := by
  induction n generalizing e w with
  | zero => exact ⟨rfl, rfl, rfl, rfl, hw, ha⟩
  | succ k ih =>
    have hc := clear_ready P e w [] hw (by
      cases hr : e._reusable
      · exact Or.inr rfl
      · exact Or.inl ⟨rfl, ha⟩)
    obtain ⟨cout, caddr, calg, cr, cw, cacc⟩ := hc
    obtain ⟨i1, i2, i3, i4, i5, i6⟩ := ih (e.Clear P w).self (e.Clear P w).world cw cacc
    simp only [clearTimes, cout, i1]
    refine ⟨?_, ?_, ?_, ?_, i5, i6⟩
    · simp [List.replicate_succ, caddr]
    · rw [i2, caddr]
    · rw [i3, calg]
    · rw [i4, cr]

theorem updateAll_accepting (chunks : List (List Byte)) (e : CngHashAlgorithm) (w : World)
    (m : List Byte) (hw : w.FaultFree) (ha : e.Accepting w m) :
    (updateAll e w chunks).out = .returned e.addr ∧
    (updateAll e w chunks).self = e ∧
    (updateAll e w chunks).world.FaultFree ∧
    e.Accepting (updateAll e w chunks).world
      (m ++ (chunks.map (fun c => c.take (toULONG c.length))).flatten) := by
  induction chunks generalizing w m with
  | nil => exact ⟨rfl, rfl, hw, by simpa using ha⟩
  | cons c cs ih =>
    obtain ⟨hout, hself, htape, hacc⟩ := update_accepting e w m c c.length hw ha
    have hw1 : (e.Update w c c.length).world.FaultFree := by
      intro s hs
      exact hw s (htape ▸ hs)
    obtain ⟨i1, i2, i3, i4⟩ := ih (e.Update w c c.length).world _ hw1 hacc
    simp only [updateAll, hout, hself]
    exact ⟨i1, i2, i3, by simpa [List.append_assoc] using i4⟩

theorem freshChunked_ok (P : Platform) (w : World) (addr resultSize : Nat) (algName : String)
    (chunks : List (List Byte)) (hw : w.FaultFree) :
    freshChunked P w addr resultSize algName chunks
      = .returned (P.digest algName (chunks.map (fun c => c.take (toULONG c.length))).flatten) := by
  obtain ⟨e, w1, hc, hw1, hacc, _, halg, _⟩ := create_ok P w addr resultSize algName hw
  obtain ⟨hout, hself, hw2, hacc2⟩ := updateAll_accepting chunks e w1 [] hw1 hacc
  obtain ⟨fout, _⟩ := finish_accepting P e _ _ hw2 hacc2
  simp only [freshChunked, hc, hout, hself, fout, halg, List.nil_append]

theorem toULONG_small (n : Nat) (h : n < 4294967296) : toULONG n = n := by
  simp [toULONG, Nat.mod_eq_of_lt h]

/-- Chunking invariance holds as long as the whole input is shorter than 2^32
bytes. -/
theorem chunking_below_4GiB (P : Platform) (w w0 : World) (addr addr0 resultSize : Nat)
    (algName : String) (chunks : List (List Byte)) (hw : w.FaultFree) (hw0 : w0.FaultFree)
    (hlen : chunks.flatten.length < 4294967296) :
    freshChunked P w addr resultSize algName chunks
      = freshHash P w0 addr0 resultSize algName chunks.flatten ∧
    freshHash P w0 addr0 resultSize algName chunks.flatten
      = .returned (P.digest algName chunks.flatten) := by
  rw [freshChunked_ok P w addr resultSize algName chunks hw,
    freshHash_ok P w0 addr0 resultSize algName _ hw0, toULONG_small _ hlen]
  have key : ∀ cs : List (List Byte), cs.flatten.length < 4294967296 →
      (cs.map (fun c => c.take (toULONG c.length))).flatten = cs.flatten := by
    intro cs
    induction cs with
    | nil => intro _; rfl
    | cons c t ih =>
      intro h
      simp only [List.flatten_cons, List.length_append] at h
      simp only [List.map_cons, List.flatten_cons]
      rw [ih (by omega), toULONG_small _ (by omega), List.take_length]
  rw [key chunks hlen, List.take_length]
  exact ⟨rfl, rfl⟩

theorem halfBuffer_length : halfBuffer.length = 2147483648 := by
  unfold halfBuffer
  exact List.length_replicate _ _

/-! ## The steps of `Initialise` -/

theorem initialise_fail_open (P : Platform) (e : CngHashAlgorithm) (w : World)
    (h0 : NT_SUCCESS (w.statusAt 0) = false) :
    (e.Initialise P w).out = .thrown (.runtime_error .BCryptOpenAlgorithmProvider (w.statusAt 0)) ∧
    (e.Initialise P w).self = e ∧
    (e.Initialise P w).world.issued = w.issued ∧
    (e.Initialise P w).world.log = w.log ++
      [.OpenAlgorithmProvider e._algName (if e._reusable then BCRYPT_HASH_REUSABLE_FLAG else 0)
        (w.statusAt 0) 0] := by
  simp only [World.statusAt, Nat.add_zero, List.getD_eq_getElem?_getD] at h0 ⊢
  simp [Initialise, BCryptOpenAlgorithmProvider, World.answered, World.status, h0]

theorem initialise_fail_query (P : Platform) (e : CngHashAlgorithm) (w : World)
    (h0 : NT_SUCCESS (w.statusAt 0) = true) (h1 : NT_SUCCESS (w.statusAt 1) = false) :
    (e.Initialise P w).out = .thrown (.runtime_error .BCryptGetProperty (w.statusAt 1)) ∧
    (e.Initialise P w).self = { e with _hAlg := w.issued + 1 } ∧
    (e.Initialise P w).world.issued = w.issued + 1 ∧
    (e.Initialise P w).world.log = w.log ++
      [.OpenAlgorithmProvider e._algName (if e._reusable then BCRYPT_HASH_REUSABLE_FLAG else 0)
        (w.statusAt 0) (w.issued + 1),
       .GetProperty (w.issued + 1) (w.statusAt 1) 0] := by
  simp only [World.statusAt, Nat.add_zero, List.getD_eq_getElem?_getD] at h0 h1 ⊢
  simp [Initialise, BCryptOpenAlgorithmProvider, BCryptGetProperty, World.answered,
    World.status, h0, h1]

theorem initialise_fail_alloc (P : Platform) (e : CngHashAlgorithm) (w : World)
    (h0 : NT_SUCCESS (w.statusAt 0) = true) (h1 : NT_SUCCESS (w.statusAt 1) = true)
    (h2 : NT_SUCCESS (w.statusAt 2) = false) :
    (e.Initialise P w).out = .thrown .bad_alloc ∧
    (e.Initialise P w).self = { e with _hAlg := w.issued + 1, _pbHashObject := 0 } ∧
    (e.Initialise P w).world.issued = w.issued + 1 ∧
    (e.Initialise P w).world.log = w.log ++
      [.OpenAlgorithmProvider e._algName (if e._reusable then BCRYPT_HASH_REUSABLE_FLAG else 0)
        (w.statusAt 0) (w.issued + 1),
       .GetProperty (w.issued + 1) (w.statusAt 1) (toULONG (P.objectLength e._algName)),
       .HeapAlloc (toULONG (P.objectLength e._algName)) 0] := by
  simp only [World.statusAt, Nat.add_zero, List.getD_eq_getElem?_getD] at h0 h1 h2 ⊢
  simp [Initialise, BCryptOpenAlgorithmProvider, BCryptGetProperty, HeapAlloc, World.answered,
    World.status, h0, h1, h2]

theorem initialise_fail_context (P : Platform) (e : CngHashAlgorithm) (w : World)
    (h0 : NT_SUCCESS (w.statusAt 0) = true) (h1 : NT_SUCCESS (w.statusAt 1) = true)
    (h2 : NT_SUCCESS (w.statusAt 2) = true) (h3 : NT_SUCCESS (w.statusAt 3) = false) :
    (e.Initialise P w).out = .thrown (.runtime_error .BCryptCreateHash (w.statusAt 3)) ∧
    (e.Initialise P w).self = { e with _hAlg := w.issued + 1, _pbHashObject := w.issued + 2 } ∧
    (e.Initialise P w).world.issued = w.issued + 2 ∧
    (e.Initialise P w).world.log = w.log ++
      [.OpenAlgorithmProvider e._algName (if e._reusable then BCRYPT_HASH_REUSABLE_FLAG else 0)
        (w.statusAt 0) (w.issued + 1),
       .GetProperty (w.issued + 1) (w.statusAt 1) (toULONG (P.objectLength e._algName)),
       .HeapAlloc (toULONG (P.objectLength e._algName)) (w.issued + 2),
       .CreateHash (w.issued + 1) (w.issued + 2) (toULONG (P.objectLength e._algName))
        (w.statusAt 3) 0] := by
  simp only [World.statusAt, Nat.add_zero, List.getD_eq_getElem?_getD] at h0 h1 h2 h3 ⊢
  simp [Initialise, BCryptOpenAlgorithmProvider, BCryptGetProperty, HeapAlloc, BCryptCreateHash,
    World.answered, World.status, h0, h1, h2, h3]

theorem initialise_success (P : Platform) (e : CngHashAlgorithm) (w : World)
    (h0 : NT_SUCCESS (w.statusAt 0) = true) (h1 : NT_SUCCESS (w.statusAt 1) = true)
    (h2 : NT_SUCCESS (w.statusAt 2) = true) (h3 : NT_SUCCESS (w.statusAt 3) = true) :
    (e.Initialise P w).out = .returned () ∧
    (e.Initialise P w).self =
      { e with _hAlg := w.issued + 1, _pbHashObject := w.issued + 2, _hHash := w.issued + 3 } ∧
    (e.Initialise P w).world.issued = w.issued + 3 ∧
    (e.Initialise P w).world.log = w.log ++
      [.OpenAlgorithmProvider e._algName (if e._reusable then BCRYPT_HASH_REUSABLE_FLAG else 0)
        (w.statusAt 0) (w.issued + 1),
       .GetProperty (w.issued + 1) (w.statusAt 1) (toULONG (P.objectLength e._algName)),
       .HeapAlloc (toULONG (P.objectLength e._algName)) (w.issued + 2),
       .CreateHash (w.issued + 1) (w.issued + 2) (toULONG (P.objectLength e._algName))
        (w.statusAt 3) (w.issued + 3)] := by
  simp only [World.statusAt, Nat.add_zero, List.getD_eq_getElem?_getD] at h0 h1 h2 h3 ⊢
  simp [Initialise, BCryptOpenAlgorithmProvider, BCryptGetProperty, HeapAlloc, BCryptCreateHash,
    World.answered, World.status, h0, h1, h2, h3]

theorem create_eq (P : Platform) (w : World) (addr resultSize : Nat) (algName : String) :
    (create P w addr resultSize algName).1
      = (Initialise P
          { addr := addr, resultSize := resultSize, _algName := algName,
            _hAlg := 0, _hHash := 0, _pbHashObject := 0,
            _reusable := P.IsOSVersionAtLeast 6 2 0 } w).world ∧
    (create P w addr resultSize algName).2
      = match (Initialise P
          { addr := addr, resultSize := resultSize, _algName := algName,
            _hAlg := 0, _hHash := 0, _pbHashObject := 0,
            _reusable := P.IsOSVersionAtLeast 6 2 0 } w).out with
        | .thrown x => .thrown x
        | .returned _ => .returned (Initialise P
          { addr := addr, resultSize := resultSize, _algName := algName,
            _hAlg := 0, _hHash := 0, _pbHashObject := 0,
            _reusable := P.IsOSVersionAtLeast 6 2 0 } w).self := by
  simp only [create]
  split <;> rename_i h <;> simp [h]

/-! ## Bookkeeping of acquisitions and releases -/

theorem runOps_cons (P : Platform) (o : Op) (t : List Op) (s : CngHashAlgorithm × World) :
    runOps P (o :: t) s = runOps P t (o.run P s) := rfl

theorem tidy_acquire {e e1 : CngHashAlgorithm} {w w1 : World} (new : List (Kind × Nat))
    (ht : Tidy e w) (hz : ∀ k, e.held k = 0)
    (hA : acquired w1.log = acquired w.log ++ new)
    (hR : released w1.log = released w.log)
    (hi : w.issued ≤ w1.issued)
    (hnew : ∀ k h, (k, h) ∈ new → w.issued < h ∧ h ≤ w1.issued)
    (hheld : ∀ k, e1.held k = 0 ∨ (k, e1.held k) ∈ new)
    (hsole : ∀ k h, (k, h) ∈ new → e1.held k = h) :
    Tidy e1 w1 := by
  refine ⟨?_, ?_, ?_, ?_⟩
  · intro k h hm
    rw [hA, List.mem_append] at hm
    rcases hm with hm | hm
    · exact ⟨(ht.fresh k h hm).1, le_trans (ht.fresh k h hm).2 hi⟩
    · exact ⟨lt_of_le_of_lt (Nat.zero_le _) (hnew k h hm).1, (hnew k h hm).2⟩
  · intro k h hm
    rw [hA, List.mem_append] at hm
    rw [hR]
    rcases hm with hm | hm
    · have hf := ht.fresh k h hm
      have hc := ht.once k h hm
      have hne : e.held k ≠ h := by rw [hz k]; omega
      rw [if_neg hne] at hc
      have hne1 : e1.held k ≠ h := by
        rcases hheld k with h0 | hin
        · rw [h0]; omega
        · have := (hnew k _ hin).1
          omega
      rw [if_neg hne1, hc]
    · rw [if_pos (hsole k h hm)]
      rw [List.count_eq_zero]
      intro hr
      rcases ht.known k h hr with h0 | hin
      · have := (hnew k h hm).1
        omega
      · have := (ht.fresh k h hin).2
        have := (hnew k h hm).1
        omega
  · intro k h hm
    rw [hR] at hm
    rcases ht.known k h hm with h0 | hin
    · exact Or.inl h0
    · exact Or.inr (by rw [hA]; exact List.mem_append_left _ hin)
  · intro k
    rcases hheld k with h0 | hin
    · exact Or.inl h0
    · exact Or.inr (by rw [hA]; exact List.mem_append_right _ hin)

theorem tidy_frame {e e1 : CngHashAlgorithm} {w w1 : World}
    (ht : Tidy e w) (hA : acquired w1.log = acquired w.log)
    (hR : released w1.log = released w.log) (hi : w1.issued = w.issued)
    (hh : e1.held = e.held) : Tidy e1 w1 := by
  refine ⟨?_, ?_, ?_, ?_⟩
  · intro k h hm
    rw [hA] at hm
    rw [hi]
    exact ht.fresh k h hm
  · intro k h hm
    rw [hA] at hm
    rw [hR, hh]
    exact ht.once k h hm
  · intro k h hm
    rw [hR] at hm
    rw [hA]
    exact ht.known k h hm
  · intro k
    rw [hh, hA]
    exact ht.owned k

theorem dispose_log (e : CngHashAlgorithm) (w : World) :
    (e.Dispose w).world.log = w.log ++
      [.CloseAlgorithmProvider e._hAlg, .DestroyHash e._hHash, .HeapFree e._pbHashObject] ∧
    (e.Dispose w).world.issued = w.issued ∧
    (e.Dispose w).self = { e with _hAlg := 0, _hHash := 0, _pbHashObject := 0 } ∧
    (e.Dispose w).out = .returned () := by
  simp [Dispose, BCryptCloseAlgorithmProvider, BCryptDestroyHash, HeapFree, World.logged]

theorem tidy_dispose {e : CngHashAlgorithm} {w : World} (ht : Tidy e w) :
    Tidy (e.Dispose w).self (e.Dispose w).world ∧ ∀ k, (e.Dispose w).self.held k = 0 := by
  obtain ⟨hlog, hiss, hself, _⟩ := dispose_log e w
  have hA : acquired (e.Dispose w).world.log = acquired w.log := by
    rw [hlog]; simp [acquired, Call.acquires, List.filterMap_append]
  have hR : released (e.Dispose w).world.log = released w.log ++
      [(Kind.provider, e._hAlg), (Kind.context, e._hHash), (Kind.buffer, e._pbHashObject)] := by
    rw [hlog]; simp [released, Call.releases, List.filterMap_append]
  have hz : ∀ k, (e.Dispose w).self.held k = 0 := by
    intro k
    rw [hself]
    cases k <;> rfl
  refine ⟨⟨?_, ?_, ?_, ?_⟩, hz⟩
  · intro k h hm
    rw [hA] at hm
    rw [hiss]
    exact ht.fresh k h hm
  · intro k h hm
    rw [hA] at hm
    have hf := ht.fresh k h hm
    have hc := ht.once k h hm
    have hne : (e.Dispose w).self.held k ≠ h := by rw [hz k]; omega
    rw [if_neg hne, hR, List.count_append, hc]
    cases k <;> simp [List.count_cons, held] <;> split_ifs <;> rfl
  · intro k h hm
    rw [hR, List.mem_append] at hm
    rw [hA]
    rcases hm with hm | hm
    · exact ht.known k h hm
    · simp only [List.mem_cons, Prod.mk.injEq, List.mem_singleton, List.not_mem_nil,
        or_false] at hm
      rcases hm with ⟨hk, hh⟩ | ⟨hk, hh⟩ | ⟨hk, hh⟩
      · subst hk; subst hh; exact ht.owned .provider
      · subst hk; subst hh; exact ht.owned .context
      · subst hk; subst hh; exact ht.owned .buffer
  · intro k
    exact Or.inl (hz k)

theorem hashData_log (w : World) (hHash : Nat) (data : List Byte) (cb : Nat) :
    (BCryptHashData w hHash data cb).2.log
      = w.log ++ [.HashData hHash cb (BCryptHashData w hHash data cb).1] ∧
    (BCryptHashData w hHash data cb).2.issued = w.issued := by
  cases hs : NT_SUCCESS w.status
  · simp [BCryptHashData, hs, World.answered]
  · cases hf : w.hashes.find? (fun o => decide (o.handle = hHash)) with
    | none => simp [BCryptHashData, hs, hf, World.answered]
    | some o =>
      cases hfin : o.finished <;> simp [BCryptHashData, hs, hf, hfin, World.answered]

theorem finishHash_log (P : Platform) (w : World) (hHash : Nat) (cb : Nat) :
    (BCryptFinishHash P w hHash cb).world.log
      = w.log ++ [.FinishHash hHash cb (BCryptFinishHash P w hHash cb).status] ∧
    (BCryptFinishHash P w hHash cb).world.issued = w.issued ∧
    (BCryptFinishHash P w hHash cb).world.providers = w.providers ∧
    (BCryptFinishHash P w hHash cb).world.heap = w.heap := by
  cases hs : NT_SUCCESS w.status
  · simp [BCryptFinishHash, hs, World.answered]
  · cases hf : w.hashes.find? (fun o => decide (o.handle = hHash)) with
    | none => simp [BCryptFinishHash, hs, hf, World.answered]
    | some o =>
      cases hfin : o.finished <;> simp [BCryptFinishHash, hs, hf, hfin, World.answered]

theorem update_log (e : CngHashAlgorithm) (w : World) (data : List Byte) (dataLen : Nat) :
    (e.Update w data dataLen).self = e ∧
    (e.Update w data dataLen).world.issued = w.issued ∧
    ∃ s, (e.Update w data dataLen).world.log
      = w.log ++ [.HashData e._hHash (toULONG dataLen) s] := by
  obtain ⟨hl, hi⟩ := hashData_log w e._hHash data (toULONG dataLen)
  refine ⟨?_, ?_, ⟨(BCryptHashData w e._hHash data (toULONG dataLen)).1, ?_⟩⟩
  · simp only [Update]; split <;> rfl
  · simp only [Update]; split <;> exact hi
  · simp only [Update]; split <;> exact hl

theorem finish_log (P : Platform) (e : CngHashAlgorithm) (w : World) :
    (e.Finish P w).self = e ∧
    (e.Finish P w).world.issued = w.issued ∧
    (e.Finish P w).world.providers = w.providers ∧
    (e.Finish P w).world.heap = w.heap ∧
    ∃ s, (e.Finish P w).world.log
      = w.log ++ [.FinishHash e._hHash (toULONG e.resultSize) s] := by
  obtain ⟨hl, hi, hp, hh⟩ := finishHash_log P w e._hHash (toULONG e.resultSize)
  refine ⟨?_, ?_, ?_, ?_,
    ⟨(BCryptFinishHash P w e._hHash (toULONG e.resultSize)).status, ?_⟩⟩
  · simp only [Finish]; split <;> rfl
  · simp only [Finish]; split <;> exact hi
  · simp only [Finish]; split <;> exact hp
  · simp only [Finish]; split <;> exact hh
  · simp only [Finish]; split <;> exact hl

theorem tidy_update {e : CngHashAlgorithm} {w : World} (ht : Tidy e w) (data : List Byte)
    (dataLen : Nat) :
    Tidy (e.Update w data dataLen).self (e.Update w data dataLen).world := by
  obtain ⟨hs, hi, s, hl⟩ := update_log e w data dataLen
  exact tidy_frame ht (by rw [hl]; simp [acquired, Call.acquires, List.filterMap_append])
    (by rw [hl]; simp [released, Call.releases, List.filterMap_append]) hi (by rw [hs])

theorem tidy_finish (P : Platform) {e : CngHashAlgorithm} {w : World} (ht : Tidy e w) :
    Tidy (e.Finish P w).self (e.Finish P w).world := by
  obtain ⟨hs, hi, _, _, s, hl⟩ := finish_log P e w
  exact tidy_frame ht (by rw [hl]; simp [acquired, Call.acquires, List.filterMap_append])
    (by rw [hl]; simp [released, Call.releases, List.filterMap_append]) hi (by rw [hs])

theorem tidy_initialise (P : Platform) {e : CngHashAlgorithm} {w : World} (ht : Tidy e w)
    (hz : ∀ k, e.held k = 0) :
    Tidy (e.Initialise P w).self (e.Initialise P w).world := by
  have z1 : e._hAlg = 0 := hz .provider
  have z2 : e._hHash = 0 := hz .context
  have z3 : e._pbHashObject = 0 := hz .buffer
  cases h0 : NT_SUCCESS (w.statusAt 0)
  · obtain ⟨_, hs, hi, hl⟩ := initialise_fail_open P e w h0
    exact tidy_frame ht
      (by rw [hl]; simp [acquired, Call.acquires, List.filterMap_append, h0])
      (by rw [hl]; simp [released, Call.releases, List.filterMap_append]) hi (by rw [hs])
  cases h1 : NT_SUCCESS (w.statusAt 1)
  · obtain ⟨_, hs, hi, hl⟩ := initialise_fail_query P e w h0 h1
    refine tidy_acquire [(.provider, w.issued + 1)] ht hz
      (by rw [hl]; simp [acquired, Call.acquires, List.filterMap_append, h0, h1])
      (by rw [hl]; simp [released, Call.releases, List.filterMap_append])
      (by rw [hi]; omega) ?_ ?_ ?_
    · intro k h hm; simp at hm; rw [hi]; omega
    · intro k; rw [hs]; cases k <;> simp [held, z2, z3]
    · intro k h hm; simp at hm; rw [hs, hm.1, hm.2]; rfl
  cases h2 : NT_SUCCESS (w.statusAt 2)
  · obtain ⟨_, hs, hi, hl⟩ := initialise_fail_alloc P e w h0 h1 h2
    refine tidy_acquire [(.provider, w.issued + 1)] ht hz
      (by rw [hl]; simp [acquired, Call.acquires, List.filterMap_append, h0, h1])
      (by rw [hl]; simp [released, Call.releases, List.filterMap_append])
      (by rw [hi]; omega) ?_ ?_ ?_
    · intro k h hm; simp at hm; rw [hi]; omega
    · intro k; rw [hs]; cases k <;> simp [held, z2]
    · intro k h hm; simp at hm; rw [hs, hm.1, hm.2]; rfl
  cases h3 : NT_SUCCESS (w.statusAt 3)
  · obtain ⟨_, hs, hi, hl⟩ := initialise_fail_context P e w h0 h1 h2 h3
    refine tidy_acquire [(.provider, w.issued + 1), (.buffer, w.issued + 2)] ht hz
      (by rw [hl]; simp [acquired, Call.acquires, List.filterMap_append, h0, h1, h3])
      (by rw [hl]; simp [released, Call.releases, List.filterMap_append])
      (by rw [hi]; omega) ?_ ?_ ?_
    · intro k h hm; simp at hm; rw [hi]; omega
    · intro k; rw [hs]; cases k <;> simp [held, z2]
    · intro k h hm; simp at hm; rw [hs]
      rcases hm with ⟨hk, hh⟩ | ⟨hk, hh⟩ <;> rw [hk, hh] <;> rfl
  · obtain ⟨_, hs, hi, hl⟩ := initialise_success P e w h0 h1 h2 h3
    refine tidy_acquire
      [(.provider, w.issued + 1), (.buffer, w.issued + 2), (.context, w.issued + 3)] ht hz
      (by rw [hl]; simp [acquired, Call.acquires, List.filterMap_append, h0, h1, h3])
      (by rw [hl]; simp [released, Call.releases, List.filterMap_append])
      (by rw [hi]; omega) ?_ ?_ ?_
    · intro k h hm; simp at hm; rw [hi]; omega
    · intro k; rw [hs]; cases k <;> simp [held]
    · intro k h hm; simp at hm; rw [hs]
      rcases hm with ⟨hk, hh⟩ | ⟨hk, hh⟩ | ⟨hk, hh⟩ <;> rw [hk, hh] <;> rfl

theorem clear_reusable_eq (P : Platform) (e : CngHashAlgorithm) (w : World)
    (hr : e._reusable = true) :
    (e.Clear P w).self = (e.Finish P w).self ∧ (e.Clear P w).world = (e.Finish P w).world := by
  simp only [Clear, hr, if_true]
  split <;> exact ⟨rfl, rfl⟩

theorem clear_slow_eq (P : Platform) (e : CngHashAlgorithm) (w : World)
    (hr : e._reusable = false) :
    (e.Clear P w).self = ((e.Dispose w).self.Initialise P (e.Dispose w).world).self ∧
    (e.Clear P w).world = ((e.Dispose w).self.Initialise P (e.Dispose w).world).world ∧
    ((e.Clear P w).out = .returned e.addr ↔
      ((e.Dispose w).self.Initialise P (e.Dispose w).world).out = .returned ()) := by
  have haddr : ((e.Dispose w).self.Initialise P (e.Dispose w).world).self.addr = e.addr := by
    simp only [Initialise]
    repeat' split
    all_goals rfl
  simp only [Clear, hr, Bool.false_eq_true, if_false]
  cases hx : ((e.Dispose w).self.Initialise P (e.Dispose w).world).out with
  | thrown x => simp
  | returned u => simp [haddr]

theorem tidy_clear (P : Platform) {e : CngHashAlgorithm} {w : World} (ht : Tidy e w) :
    Tidy (e.Clear P w).self (e.Clear P w).world := by
  cases hr : e._reusable
  · obtain ⟨hs, hw, _⟩ := clear_slow_eq P e w hr
    rw [hs, hw]
    obtain ⟨td, hz⟩ := tidy_dispose ht
    exact tidy_initialise P td hz
  · obtain ⟨hs, hw⟩ := clear_reusable_eq P e w hr
    rw [hs, hw]
    exact tidy_finish P ht

theorem tidy_runOps (P : Platform) (ops : List Op) {e : CngHashAlgorithm} {w : World}
    (ht : Tidy e w) : Tidy (runOps P ops (e, w)).1 (runOps P ops (e, w)).2 := by
  induction ops generalizing e w with
  | nil => exact ht
  | cons o t ih =>
    simp only [runOps, List.foldl_cons]
    cases o with
    | Update data dataLen => exact ih (tidy_update ht data dataLen)
    | Finish => exact ih (tidy_finish P ht)
    | Clear => exact ih (tidy_clear P ht)

theorem tidy_create (P : Platform) (w0 : World) (addr resultSize : Nat) (algName : String)
    (e : CngHashAlgorithm) (w : World) (hlog : w0.log = [])
    (hc : create P w0 addr resultSize algName = (w, .returned e)) :
    Tidy e w := by
  have h0 : Tidy
      { addr := addr, resultSize := resultSize, _algName := algName,
        _hAlg := 0, _hHash := 0, _pbHashObject := 0,
        _reusable := P.IsOSVersionAtLeast 6 2 0 } w0 := by
    refine ⟨?_, ?_, ?_, ?_⟩
    · intro k h hm; simp [hlog, acquired] at hm
    · intro k h hm; simp [hlog, acquired] at hm
    · intro k h hm; simp [hlog, released] at hm
    · intro k; left; cases k <;> rfl
  have h1 := tidy_initialise P h0 (by intro k; cases k <;> rfl)
  simp only [create] at hc
  split at hc
  · simp at hc
  · simp only [Prod.mk.injEq, Outcome.returned.injEq] at hc
    rw [← hc.1, ← hc.2]
    exact h1

theorem initialise_keeps (P : Platform) (e : CngHashAlgorithm) (w : World) :
    (e.Initialise P w).self._reusable = e._reusable ∧
    (e.Initialise P w).self._algName = e._algName := by
  simp only [Initialise]
  repeat' split
  all_goals exact ⟨rfl, rfl⟩

theorem clear_keeps (P : Platform) (e : CngHashAlgorithm) (w : World) :
    (e.Clear P w).self._reusable = e._reusable ∧
    (e.Clear P w).self._algName = e._algName := by
  cases hr : e._reusable
  · rw [(clear_slow_eq P e w hr).1]
    obtain ⟨h1, h2⟩ := initialise_keeps P (e.Dispose w).self (e.Dispose w).world
    rw [h1, h2]
    exact ⟨hr, rfl⟩
  · rw [(clear_reusable_eq P e w hr).1, (finish_log P e w).1]
    exact ⟨hr, rfl⟩

theorem runOps_keeps (P : Platform) (ops : List Op) (e : CngHashAlgorithm) (w : World) :
    (runOps P ops (e, w)).1._reusable = e._reusable ∧
    (runOps P ops (e, w)).1._algName = e._algName := by
  induction ops generalizing e w with
  | nil => exact ⟨rfl, rfl⟩
  | cons o t ih =>
    rw [runOps_cons]
    cases o with
    | Update data dataLen =>
      obtain ⟨i1, i2⟩ := ih (e.Update w data dataLen).self (e.Update w data dataLen).world
      have hs := (update_log e w data dataLen).1
      simp only [Op.run]
      rw [i1, i2, hs]
      exact ⟨rfl, rfl⟩
    | Finish =>
      obtain ⟨i1, i2⟩ := ih (e.Finish P w).self (e.Finish P w).world
      have hs := (finish_log P e w).1
      simp only [Op.run]
      rw [i1, i2, hs]
      exact ⟨rfl, rfl⟩
    | Clear =>
      obtain ⟨i1, i2⟩ := ih (e.Clear P w).self (e.Clear P w).world
      obtain ⟨c1, c2⟩ := clear_keeps P e w
      simp only [Op.run]
      rw [i1, i2, c1, c2]
      exact ⟨rfl, rfl⟩

theorem initialise_releases_nothing (P : Platform) (e : CngHashAlgorithm) (w : World) :
    ∃ rest, (e.Initialise P w).world.log = w.log ++ rest ∧ released rest = [] ∧
      ((e.Initialise P w).out = .returned () →
        acquired rest
          = [(.provider, w.issued + 1), (.buffer, w.issued + 2), (.context, w.issued + 3)] ∧
        (e.Initialise P w).self._hAlg = w.issued + 1 ∧
        (e.Initialise P w).self._pbHashObject = w.issued + 2 ∧
        (e.Initialise P w).self._hHash = w.issued + 3) := by
  cases h0 : NT_SUCCESS (w.statusAt 0)
  · obtain ⟨ho, _, _, hl⟩ := initialise_fail_open P e w h0
    exact ⟨_, hl, by simp [released, Call.releases], by rw [ho]; intro h; cases h⟩
  cases h1 : NT_SUCCESS (w.statusAt 1)
  · obtain ⟨ho, _, _, hl⟩ := initialise_fail_query P e w h0 h1
    exact ⟨_, hl, by simp [released, Call.releases], by rw [ho]; intro h; cases h⟩
  cases h2 : NT_SUCCESS (w.statusAt 2)
  · obtain ⟨ho, _, _, hl⟩ := initialise_fail_alloc P e w h0 h1 h2
    exact ⟨_, hl, by simp [released, Call.releases], by rw [ho]; intro h; cases h⟩
  cases h3 : NT_SUCCESS (w.statusAt 3)
  · obtain ⟨ho, _, _, hl⟩ := initialise_fail_context P e w h0 h1 h2 h3
    exact ⟨_, hl, by simp [released, Call.releases], by rw [ho]; intro h; cases h⟩
  · obtain ⟨_, hs, _, hl⟩ := initialise_success P e w h0 h1 h2 h3
    refine ⟨_, hl, by simp [released, Call.releases], fun _ => ⟨?_, ?_, ?_, ?_⟩⟩
    · simp [acquired, Call.acquires, h0, h3]
    · rw [hs]
    · rw [hs]
    · rw [hs]

/-- Construction never calls a release function, whatever its outcome. -/
theorem create_releases_nothing (P : Platform) (w : World) (addr resultSize : Nat)
    (algName : String) :
    released (create P w addr resultSize algName).1.log = released w.log := by
  rw [(create_eq P w addr resultSize algName).1]
  obtain ⟨rest, hl, hrel, _⟩ := initialise_releases_nothing P
    { addr := addr, resultSize := resultSize, _algName := algName,
      _hAlg := 0, _hHash := 0, _pbHashObject := 0,
      _reusable := P.IsOSVersionAtLeast 6 2 0 } w
  rw [hl]
  simp only [released, List.filterMap_append] at hrel ⊢
  rw [hrel, List.append_nil]

/-- Once the provider has been opened, `Initialise` leaves it open, whichever
way it ends. -/
theorem initialise_keeps_provider (P : Platform) (e : CngHashAlgorithm) (w : World)
    (h0 : NT_SUCCESS (w.statusAt 0) = true) :
    ∃ p ∈ (e.Initialise P w).world.providers, p.handle = w.issued + 1 := by
  have g0 := h0
  simp only [World.statusAt, Nat.add_zero, List.getD_eq_getElem?_getD] at g0
  cases h1 : NT_SUCCESS (w.statusAt 1) <;> cases h2 : NT_SUCCESS (w.statusAt 2) <;>
    cases h3 : NT_SUCCESS (w.statusAt 3) <;>
    simp only [World.statusAt, List.getD_eq_getElem?_getD] at h1 h2 h3 <;>
    simp [Initialise, BCryptOpenAlgorithmProvider, BCryptGetProperty, HeapAlloc,
      BCryptCreateHash, World.answered, World.status, g0, h1, h2, h3]

/-- A construction that fails after the provider has been opened leaves the
provider open and has called no release function. -/
theorem failed_construction_leaks (P : Platform) (w : World) (addr resultSize : Nat)
    (algName : String) (h0 : NT_SUCCESS (w.statusAt 0) = true) :
    (∃ p ∈ (create P w addr resultSize algName).1.providers, p.handle = w.issued + 1) ∧
    released (create P w addr resultSize algName).1.log = released w.log := by
  refine ⟨?_, create_releases_nothing P w addr resultSize algName⟩
  rw [(create_eq P w addr resultSize algName).1]
  exact initialise_keeps_provider P _ w h0

/-! ## Closed hash objects -/

theorem invalid_handle_fails : NT_SUCCESS STATUS_INVALID_HANDLE = false := by decide

theorem closed_update (e : CngHashAlgorithm) (w : World) (data : List Byte) (dataLen : Nat)
    (hc : e.Closed w) :
    (∃ x, (e.Update w data dataLen).out = .thrown x) ∧
    (e.Update w data dataLen).self = e ∧
    e.Closed (e.Update w data dataLen).world := by
  obtain ⟨o, hfind, hfin⟩ := hc
  cases hs : NT_SUCCESS w.status <;>
    simp [Update, BCryptHashData, hs, hfind, hfin, World.answered, Closed,
      invalid_handle_fails]

theorem closed_finish (P : Platform) (e : CngHashAlgorithm) (w : World) (hc : e.Closed w) :
    (∃ x, (e.Finish P w).out = .thrown x) ∧
    (e.Finish P w).self = e ∧
    e.Closed (e.Finish P w).world := by
  obtain ⟨o, hfind, hfin⟩ := hc
  cases hs : NT_SUCCESS w.status <;>
    simp [Finish, BCryptFinishHash, hs, hfind, hfin, World.answered, Closed,
      invalid_handle_fails]

theorem closed_runOps (P : Platform) (ops : List Op) (e : CngHashAlgorithm) (w : World)
    (hc : e.Closed w) (hops : ∀ o ∈ ops, o ≠ Op.Clear) :
    (runOps P ops (e, w)).1 = e ∧ e.Closed (runOps P ops (e, w)).2 := by
  induction ops generalizing w with
  | nil => exact ⟨rfl, hc⟩
  | cons o t ih =>
    have ht : ∀ o ∈ t, o ≠ Op.Clear := fun o ho => hops o (List.mem_cons_of_mem _ ho)
    rw [runOps_cons]
    cases o with
    | Update data dataLen =>
      obtain ⟨_, hs, hcl⟩ := closed_update e w data dataLen hc
      have hrun : Op.run P (.Update data dataLen) (e, w)
          = (e, (e.Update w data dataLen).world) := by
        simp [Op.run, hs]
      rw [hrun]
      exact ih _ hcl ht
    | Finish =>
      obtain ⟨_, hs, hcl⟩ := closed_finish P e w hc
      have hrun : Op.run P .Finish (e, w) = (e, (e.Finish P w).world) := by
        simp [Op.run, hs]
      rw [hrun]
      exact ih _ hcl ht
    | Clear => exact absurd rfl (hops _ (List.mem_cons_self _ _))

/-! ## Inputs of 2^32 bytes -/

theorem whole_length_truncated : toULONG (halfBuffer ++ halfBuffer).length = 0 := by
  rw [List.length_append, halfBuffer_length]
  rfl

theorem whole_handed_empty :
    (halfBuffer ++ halfBuffer).take (toULONG (halfBuffer ++ halfBuffer).length) = [] := by
  rw [whole_length_truncated, List.take_zero]

theorem piece_length_kept : toULONG halfBuffer.length = 2147483648 := by
  rw [halfBuffer_length]
  rfl

theorem piece_handed_whole : halfBuffer.take (toULONG halfBuffer.length) = halfBuffer := by
  rw [piece_length_kept]
  exact List.take_of_length_le (le_of_eq halfBuffer_length)

theorem pieces_handed_whole :
    ([halfBuffer, halfBuffer].map (fun c => c.take (toULONG c.length))).flatten
      = halfBuffer ++ halfBuffer := by
  rw [List.map_cons, List.map_cons, List.map_nil, List.flatten_cons, List.flatten_cons,
    List.flatten_nil, List.append_nil]
  simp only [piece_handed_whole]

/-! ## The claims -/

/-- C1 (reuse correctness).  On either value of the reusable flag (the value of
the platform's version query), when the library serves every call, an object
constructed in any world that runs `Update(S1); Finish(); Clear(); Update(S2);
Finish()` returns from its last `Finish` the digest a freshly constructed object
of the same algorithm returns from `Update(S2); Finish()`. -/
theorem reuse_matches_fresh (P : Platform) (w w0 : World) (addr addr0 resultSize : Nat)
    (algName : String) (S1 S2 : List Byte) (hw : w.FaultFree) (hw0 : w0.FaultFree) :
    ∃ e w1 d, create P w addr resultSize algName = (w1, .returned e) ∧
      e._reusable = P.IsOSVersionAtLeast 6 2 0 ∧
      (reuseRun P e w1 S1 S2).out = .returned d ∧
      freshHash P w0 addr0 resultSize algName S2 = .returned d := by
  obtain ⟨e, w1, hc, hw1, hacc, _, halg, hr⟩ := create_ok P w addr resultSize algName hw
  refine ⟨e, w1, _, hc, hr, reuseRun_ok P e w1 S1 S2 hw1 hacc, ?_⟩
  rw [freshHash_ok P w0 addr0 resultSize algName S2 hw0, halg]

theorem reuse_matches_fresh_witness :
    (World.boot []).FaultFree ∧ (World.boot [0, 0]).FaultFree ∧
    ∃ e w1 d, create win7 (World.boot []) 100 20 "SHA1" = (w1, .returned e) ∧
      e._reusable = win7.IsOSVersionAtLeast 6 2 0 ∧
      (reuseRun win7 e w1 [1, 2] [3]).out = .returned d ∧
      freshHash win7 (World.boot [0, 0]) 200 20 "SHA1" [3] = .returned d :=
  ⟨by decide, by decide,
   reuse_matches_fresh win7 (World.boot []) (World.boot [0, 0]) 100 200 20 "SHA1" [1, 2] [3]
     (by decide) (by decide)⟩

/-- C2 (partial-construction cleanup).  Construction in which the object-length
query fails: the exception leaves the constructor, the provider opened by the
first step is still open, and no release function has been called. -/
theorem failed_construction_leaks_provider :
    (create win7 (World.boot [0, -1]) 100 20 "SHA1").2
      = .thrown (.runtime_error .BCryptGetProperty (-1)) ∧
    (create win7 (World.boot [0, -1]) 100 20 "SHA1").1.providers
      = [{ handle := 1, algId := "SHA1", reusable := false }] ∧
    acquired (create win7 (World.boot [0, -1]) 100 20 "SHA1").1.log = [(.provider, 1)] ∧
    released (create win7 (World.boot [0, -1]) 100 20 "SHA1").1.log = [] := by
  decide

/-- C3 (the length handed to the library).  A buffer of 2^32 bytes passed to
`Update` with `dataLen = 4294967296`: the call succeeds, the byte count handed
to `BCryptHashData` is `0`, and the message of the hash object is as empty as
before. -/
theorem update_4GiB_hands_zero_bytes (P : Platform) :
    (halfBuffer ++ halfBuffer).length = 4294967296 ∧
    ∃ e w1, create P (World.boot []) 100 20 "SHA1" = (w1, .returned e) ∧
      (e.Update w1 (halfBuffer ++ halfBuffer) 4294967296).out = .returned 100 ∧
      (e.Update w1 (halfBuffer ++ halfBuffer) 4294967296).world.log
        = w1.log ++ [Call.HashData e._hHash 0 0] ∧
      e.Accepting (e.Update w1 (halfBuffer ++ halfBuffer) 4294967296).world [] := by
  refine ⟨by simp [halfBuffer_length], ?_⟩
  have hb : (World.boot []).FaultFree := by decide
  obtain ⟨e, w1, hc, hw1, hacc, haddr, _, _⟩ := create_ok P (World.boot []) 100 20 "SHA1" hb
  obtain ⟨u1, _, _, u4⟩ := update_accepting e w1 [] (halfBuffer ++ halfBuffer) 4294967296 hw1 hacc
  refine ⟨e, w1, hc, by rw [u1, haddr], ?_, by simpa [toULONG] using u4⟩
  obtain ⟨o, hfind, _, hfin, _⟩ := hacc
  have hs := status_ok w1 hw1
  have ht : w1.tape = [] := by
    have := congrArg (fun x => x.1.tape) hc
    simpa [create, Initialise, BCryptOpenAlgorithmProvider, BCryptGetProperty, HeapAlloc,
      BCryptCreateHash, World.answered, World.status, World.boot] using this.symm
  have h0 : w1.status = 0 := by simp [World.status, ht]
  simp [Update, BCryptHashData, hfind, hfin, World.answered, toULONG, h0, NT_SUCCESS]

/-- C4 (chunking invariance).  The 2^32 zero bytes fed as two pieces of 2^31
bytes give the digest of all 2^32 bytes; the same bytes fed in one `Update`
give the digest of the empty message. -/
theorem chunking_breaks_at_4GiB (P : Platform) :
    [halfBuffer, halfBuffer].flatten = halfBuffer ++ halfBuffer ∧
    halfBuffer ++ halfBuffer ≠ [] ∧
    freshChunked P (World.boot []) 100 20 "SHA1" [halfBuffer, halfBuffer]
      = .returned (P.digest "SHA1" (halfBuffer ++ halfBuffer)) ∧
    freshHash P (World.boot []) 100 20 "SHA1" (halfBuffer ++ halfBuffer)
      = .returned (P.digest "SHA1" []) := by
  have hb : (World.boot []).FaultFree := by decide
  refine ⟨?_, ?_, ?_, ?_⟩
  · rw [List.flatten_cons, List.flatten_cons, List.flatten_nil, List.append_nil]
  · intro h
    have := congrArg List.length h
    simp [halfBuffer_length] at this
  · rw [freshChunked_ok P _ _ _ _ _ hb, pieces_handed_whole]
  · rw [freshHash_ok P _ _ _ _ _ hb, whole_handed_empty]

/-- C5 (idempotent Clear).  On either value of the reusable flag and for every
`n ≥ 1`, when the library serves every call, `n` calls of `Clear` on a
just-constructed object all succeed, each returns the address of the object it
was called on, and a following `Update(S); Finish()` returns the digest a
freshly constructed object returns for `S`. -/
theorem clear_on_fresh_object (P : Platform) (w w0 : World) (addr addr0 resultSize : Nat)
    (algName : String) (n : Nat) (S : List Byte)
    (hw : w.FaultFree) (hw0 : w0.FaultFree) :
    ∃ e w1 d, create P w addr resultSize algName = (w1, .returned e) ∧
      e._reusable = P.IsOSVersionAtLeast 6 2 0 ∧
      (clearTimes P e w1 n).out = .returned (List.replicate n e.addr) ∧
      (clearTimes P e w1 n).self.addr = e.addr ∧
      (hashOnce P (clearTimes P e w1 n).self (clearTimes P e w1 n).world S).out = .returned d ∧
      freshHash P w0 addr0 resultSize algName S = .returned d := by
  obtain ⟨e, w1, hc, hw1, hacc, _, halg, hr⟩ := create_ok P w addr resultSize algName hw
  obtain ⟨c1, c2, c3, _, c5, c6⟩ := clearTimes_ready P n e w1 hw1 hacc
  obtain ⟨h1, _⟩ := hashOnce_accepting P _ _ [] S c5 c6
  refine ⟨e, w1, _, hc, hr, c1, c2, h1, ?_⟩
  rw [freshHash_ok P w0 addr0 resultSize algName S hw0, c3, halg, List.nil_append]

theorem clear_on_fresh_object_witness :
    (World.boot []).FaultFree ∧ (World.boot [7]).FaultFree ∧
    ∃ e w1 d, create win8 (World.boot []) 100 32 "SHA256" = (w1, .returned e) ∧
      e._reusable = win8.IsOSVersionAtLeast 6 2 0 ∧
      (clearTimes win8 e w1 3).out = .returned (List.replicate 3 e.addr) ∧
      (clearTimes win8 e w1 3).self.addr = e.addr ∧
      (hashOnce win8 (clearTimes win8 e w1 3).self (clearTimes win8 e w1 3).world [9, 8]).out
        = .returned d ∧
      freshHash win8 (World.boot [7]) 200 32 "SHA256" [9, 8] = .returned d :=
  ⟨by decide, by decide,
   clear_on_fresh_object win8 (World.boot []) (World.boot [7]) 100 200 32 "SHA256" 3 [9, 8]
     (by decide) (by decide)⟩

/-- C6, as stated, fails on the reusable path: after a successful `Finish` on
an object whose reusable flag is set, `Update` succeeds without any `Clear`,
and so does a second `Finish`. -/
theorem update_after_finish_accepted_when_reusable :
    ∃ e w, create win8 (World.boot []) 100 20 "SHA1" = (w, .returned e) ∧
      e._reusable = true ∧
      (hashOnce win8 e w [1]).out = .returned [1] ∧
      ((hashOnce win8 e w [1]).self.Update (hashOnce win8 e w [1]).world [2] 1).out
        = .returned 100 ∧
      ((hashOnce win8 e w [1]).self.Finish win8 (hashOnce win8 e w [1]).world).out
        = .returned [] :=
  ⟨_, _, rfl, by decide⟩

/-- C6, amended.  When the library serves every call, a `Finish` on an object
that is accepting input succeeds.  If the reusable flag is clear, the hash
object is then closed: after any further `Update` and `Finish` calls every
`Update` and every `Finish` throws, until a `Clear`, which succeeds and after
which `Update` succeeds again.  If the reusable flag is set, `Finish` has
emptied the hash object, and an `Update` right after it succeeds and starts a
new message. -/
theorem finish_closes_non_reusable_only (P : Platform) (e : CngHashAlgorithm) (w : World)
    (m : List Byte) (hw : w.FaultFree) (ha : e.Accepting w m) :
    (e.Finish P w).out = .returned (P.digest e._algName m) ∧
    (e.Finish P w).self = e ∧
    (e._reusable = false →
      (∀ ops data dataLen, (∀ o ∈ ops, o ≠ Op.Clear) →
        (∃ x, ((runOps P ops (e, (e.Finish P w).world)).1.Update
          (runOps P ops (e, (e.Finish P w).world)).2 data dataLen).out = .thrown x) ∧
        (∃ x, ((runOps P ops (e, (e.Finish P w).world)).1.Finish P
          (runOps P ops (e, (e.Finish P w).world)).2).out = .thrown x)) ∧
      (e.Clear P (e.Finish P w).world).out = .returned e.addr ∧
      (∀ data dataLen,
        ((e.Clear P (e.Finish P w).world).self.Update (e.Clear P (e.Finish P w).world).world
          data dataLen).out = .returned e.addr)) ∧
    (e._reusable = true →
      ∀ data dataLen,
        (e.Update (e.Finish P w).world data dataLen).out = .returned e.addr ∧
        e.Accepting (e.Update (e.Finish P w).world data dataLen).world
          (data.take (toULONG dataLen))) := by
  obtain ⟨fout, fself, ftape, facc, fcl⟩ := finish_accepting P e w m hw ha
  have hw1 : (e.Finish P w).world.FaultFree := by
    intro s hs
    exact hw s (ftape ▸ hs)
  refine ⟨fout, fself, ?_, ?_⟩
  · intro hr
    refine ⟨?_, ?_, ?_⟩
    · intro ops data dataLen hops
      obtain ⟨hs, hcl⟩ := closed_runOps P ops e _ (fcl hr) hops
      rw [hs]
      exact ⟨(closed_update e _ data dataLen hcl).1, (closed_finish P e _ hcl).1⟩
    · exact (clear_slow P e _ hw1 hr).1
    · intro data dataLen
      obtain ⟨_, c2, _, _, c5, c6⟩ := clear_slow P e _ hw1 hr
      rw [(update_accepting _ _ [] data dataLen c5 c6).1, c2]
  · intro hr data dataLen
    obtain ⟨u1, _, _, u4⟩ := update_accepting e _ [] data dataLen hw1 (facc hr)
    exact ⟨u1, by simpa using u4⟩

theorem finish_closes_non_reusable_only_witness :
    create win7 (World.boot []) 100 20 "SHA1" = (win7World, .returned win7Object) ∧
    win7World.FaultFree ∧ win7Object.Accepting win7World [] ∧
    (win7Object.Finish win7 win7World).out = .returned (win7.digest win7Object._algName []) ∧
    (win7Object.Finish win7 win7World).self = win7Object ∧
    (win7Object._reusable = false →
      (∀ ops data dataLen, (∀ o ∈ ops, o ≠ Op.Clear) →
        (∃ x, ((runOps win7 ops (win7Object, (win7Object.Finish win7 win7World).world)).1.Update
          (runOps win7 ops (win7Object, (win7Object.Finish win7 win7World).world)).2
            data dataLen).out = .thrown x) ∧
        (∃ x, ((runOps win7 ops (win7Object, (win7Object.Finish win7 win7World).world)).1.Finish
          win7 (runOps win7 ops (win7Object, (win7Object.Finish win7 win7World).world)).2).out
            = .thrown x)) ∧
      (win7Object.Clear win7 (win7Object.Finish win7 win7World).world).out
        = .returned win7Object.addr ∧
      (∀ data dataLen,
        ((win7Object.Clear win7 (win7Object.Finish win7 win7World).world).self.Update
          (win7Object.Clear win7 (win7Object.Finish win7 win7World).world).world
          data dataLen).out = .returned win7Object.addr)) ∧
    (win7Object._reusable = true →
      ∀ data dataLen,
        (win7Object.Update (win7Object.Finish win7 win7World).world data dataLen).out
          = .returned win7Object.addr ∧
        win7Object.Accepting
          (win7Object.Update (win7Object.Finish win7 win7World).world data dataLen).world
          (data.take (toULONG dataLen))) :=
  ⟨by decide, by decide, ⟨_, rfl, rfl, rfl, rfl, rfl⟩,
    finish_closes_non_reusable_only win7 win7Object win7World [] (by decide)
      ⟨_, rfl, rfl, rfl, rfl, rfl⟩⟩

/-- C7 (what Clear does to the members).  With the reusable flag set, `Clear`
leaves every member of the object as it was and makes exactly one library
call, `BCryptFinishHash` on the held hash handle: nothing is released or
acquired, and the providers and the heap are as before.  With the flag clear,
`Clear` first passes the three held values to their release functions, releases
nothing else, and, when it succeeds, has acquired a new provider, buffer and
hash object that the members now hold.  On both paths, and after any sequence
of calls, the reusable flag and the algorithm name are unchanged. -/
theorem clear_effect (P : Platform) (e : CngHashAlgorithm) (w : World) :
    (e._reusable = true →
      (e.Clear P w).self = e ∧
      (∃ s, (e.Clear P w).world.log
        = w.log ++ [.FinishHash e._hHash (toULONG e.resultSize) s]) ∧
      acquired (e.Clear P w).world.log = acquired w.log ∧
      released (e.Clear P w).world.log = released w.log ∧
      (e.Clear P w).world.providers = w.providers ∧
      (e.Clear P w).world.heap = w.heap ∧
      (e.Clear P w).world.issued = w.issued) ∧
    (e._reusable = false →
      ∃ rest, (e.Clear P w).world.log = w.log ++
          [.CloseAlgorithmProvider e._hAlg, .DestroyHash e._hHash, .HeapFree e._pbHashObject]
          ++ rest ∧
        released rest = [] ∧
        ((e.Clear P w).out = .returned e.addr →
          acquired rest
            = [(.provider, w.issued + 1), (.buffer, w.issued + 2), (.context, w.issued + 3)] ∧
          (e.Clear P w).self._hAlg = w.issued + 1 ∧
          (e.Clear P w).self._pbHashObject = w.issued + 2 ∧
          (e.Clear P w).self._hHash = w.issued + 3)) ∧
    (e.Clear P w).self._reusable = e._reusable ∧
    (e.Clear P w).self._algName = e._algName ∧
    (∀ ops, (runOps P ops (e, w)).1._reusable = e._reusable ∧
      (runOps P ops (e, w)).1._algName = e._algName) := by
  refine ⟨?_, ?_, (clear_keeps P e w).1, (clear_keeps P e w).2, fun ops => runOps_keeps P ops e w⟩
  · intro hr
    obtain ⟨cs, cw⟩ := clear_reusable_eq P e w hr
    obtain ⟨fs, fi, fp, fh, s, fl⟩ := finish_log P e w
    rw [cs, cw, fs, fl, fi, fp, fh]
    refine ⟨rfl, ⟨s, rfl⟩, ?_, ?_, rfl, rfl, rfl⟩
    · simp [acquired, Call.acquires, List.filterMap_append]
    · simp [released, Call.releases, List.filterMap_append]
  · intro hr
    obtain ⟨cs, cw, co⟩ := clear_slow_eq P e w hr
    obtain ⟨dl, di, _, _⟩ := dispose_log e w
    obtain ⟨rest, hl, hrel, hacq⟩ :=
      initialise_releases_nothing P (e.Dispose w).self (e.Dispose w).world
    refine ⟨rest, ?_, hrel, ?_⟩
    · rw [cw, hl, dl]
    · intro hout
      have := hacq (co.mp hout)
      rw [cs]
      rw [di] at this
      exact this

theorem clear_effect_witness :
    (win8Object._reusable = true ∧
      (win8Object.Clear win8 win8World).self = win8Object ∧
      (∃ s, (win8Object.Clear win8 win8World).world.log
        = win8World.log ++ [.FinishHash 3 32 s]) ∧
      acquired (win8Object.Clear win8 win8World).world.log = acquired win8World.log ∧
      released (win8Object.Clear win8 win8World).world.log = released win8World.log ∧
      (win8Object.Clear win8 win8World).world.providers = win8World.providers ∧
      (win8Object.Clear win8 win8World).world.heap = win8World.heap ∧
      (win8Object.Clear win8 win8World).world.issued = win8World.issued) ∧
    (win7Object._reusable = false ∧
      ∃ rest, (win7Object.Clear win7 win7World).world.log = win7World.log ++
          [.CloseAlgorithmProvider 1, .DestroyHash 3, .HeapFree 2] ++ rest ∧
        released rest = [] ∧
        acquired rest = [(.provider, 4), (.buffer, 5), (.context, 6)] ∧
        (win7Object.Clear win7 win7World).self._hAlg = 4 ∧
        (win7Object.Clear win7 win7World).self._pbHashObject = 5 ∧
        (win7Object.Clear win7 win7World).self._hHash = 6) :=
  ⟨⟨rfl, (clear_effect win8 win8Object win8World).1 rfl⟩,
   ⟨rfl, by
    obtain ⟨rest, h1, h2, h3⟩ := (clear_effect win7 win7Object win7World).2.1 rfl
    exact ⟨rest, h1, h2, h3 (by decide)⟩⟩⟩

/-- C8 (every resource released exactly once).  An object constructed in any
state of the library, with the log started at its construction and whatever
statuses the library answers with, is put through any sequence of `Update`,
`Finish` and `Clear` calls (any of which may throw, a `Clear` also part-way
through `Initialise`) and then destroyed.  Then every resource the log shows
acquired was passed to its release function exactly once; every value passed
to a release function is null or an acquired resource, and null is never an
acquired resource; and the three handle members are null after `Dispose`. -/
theorem lifecycle_releases_exactly_once (P : Platform) (w0 : World)
    (addr resultSize : Nat) (algName : String) (ops : List Op)
    (e : CngHashAlgorithm) (w : World) (hlog : w0.log = [])
    (hc : create P w0 addr resultSize algName = (w, .returned e)) :
    (∀ k h, (k, h) ∈ acquired (lifetime P ops e w).world.log →
      (released (lifetime P ops e w).world.log).count (k, h) = 1) ∧
    (∀ k h, (k, h) ∈ released (lifetime P ops e w).world.log →
      h = 0 ∨ (k, h) ∈ acquired (lifetime P ops e w).world.log) ∧
    (∀ k, (k, 0) ∉ acquired (lifetime P ops e w).world.log) ∧
    (lifetime P ops e w).self._hAlg = 0 ∧
    (lifetime P ops e w).self._hHash = 0 ∧
    (lifetime P ops e w).self._pbHashObject = 0 := by
  have t0 := tidy_create P w0 addr resultSize algName e w hlog hc
  have t1 := tidy_runOps P ops t0
  obtain ⟨t2, hz⟩ := tidy_dispose t1
  refine ⟨?_, t2.known, ?_, hz .provider, hz .context, hz .buffer⟩
  · intro k h hm
    have hc1 := t2.once k h hm
    have hf := t2.fresh k h hm
    have hne : ((runOps P ops (e, w)).1.Dispose (runOps P ops (e, w)).2).self.held k ≠ h := by
      rw [hz k]; omega
    rw [if_neg hne] at hc1
    exact hc1
  · intro k hm
    have hf := t2.fresh k 0 hm
    omega

theorem lifecycle_releases_exactly_once_witness :
    (World.boot faultyTape).log = [] ∧
    ∃ e w, create win7 (World.boot faultyTape) 100 20 "SHA1" = (w, .returned e) ∧
      released (lifetime win7 faultyCalls e w).world.log
        = [(.provider, 1), (.context, 3), (.buffer, 2), (.provider, 4), (.context, 0),
           (.buffer, 0), (.provider, 5), (.context, 7), (.buffer, 6)] ∧
      (∀ k h, (k, h) ∈ acquired (lifetime win7 faultyCalls e w).world.log →
        (released (lifetime win7 faultyCalls e w).world.log).count (k, h) = 1) ∧
      (∀ k h, (k, h) ∈ released (lifetime win7 faultyCalls e w).world.log →
        h = 0 ∨ (k, h) ∈ acquired (lifetime win7 faultyCalls e w).world.log) ∧
      (∀ k, (k, 0) ∉ acquired (lifetime win7 faultyCalls e w).world.log) ∧
      (lifetime win7 faultyCalls e w).self._hAlg = 0 ∧
      (lifetime win7 faultyCalls e w).self._hHash = 0 ∧
      (lifetime win7 faultyCalls e w).self._pbHashObject = 0 :=
  ⟨rfl, _, _, rfl, by decide,
    lifecycle_releases_exactly_once win7 (World.boot faultyTape) 100 20 "SHA1" faultyCalls
      _ _ rfl rfl⟩

/-- C9, as stated, fails: a construction whose object-length query fails throws
an exception that is none of the three kinds the claim lists. -/
theorem size_query_failure_is_a_fourth_kind :
    (create win8 (World.boot [0, -7]) 100 20 "SHA1").2
      = .thrown (.runtime_error .BCryptGetProperty (-7)) ∧
    (Exn.runtime_error .BCryptGetProperty (-7)).kind ≠ some .ProviderOpenError ∧
    (Exn.runtime_error .BCryptGetProperty (-7)).kind ≠ some .AllocationError ∧
    (Exn.runtime_error .BCryptGetProperty (-7)).kind ≠ some .ContextCreateError := by
  decide

/-- C9, amended.  Construction calls, in this order, `BCryptOpenAlgorithmProvider`,
`BCryptGetProperty`, `HeapAlloc` and `BCryptCreateHash`, and stops at the first
that fails.  A failure is one of four kinds, by the step that failed:
`ProviderOpenError` for the provider, an exception the specification has no
name for when the object-length query fails, `AllocationError` when the
allocation returns null, `ContextCreateError` for the hash object.  It
succeeds exactly when the four steps succeed, and the size passed to
`HeapAlloc` and to `BCryptCreateHash` is the size `BCryptGetProperty` reported. -/
theorem construction_steps (P : Platform) (w : World) (addr resultSize : Nat)
    (algName : String) :
    (NT_SUCCESS (w.statusAt 0) = false ∧
      (create P w addr resultSize algName).2
        = .thrown (.runtime_error .BCryptOpenAlgorithmProvider (w.statusAt 0)) ∧
      (Exn.runtime_error .BCryptOpenAlgorithmProvider (w.statusAt 0)).kind
        = some .ProviderOpenError ∧
      (create P w addr resultSize algName).1.log = w.log ++
        [.OpenAlgorithmProvider algName
          (if P.IsOSVersionAtLeast 6 2 0 then BCRYPT_HASH_REUSABLE_FLAG else 0)
          (w.statusAt 0) 0]) ∨
    (NT_SUCCESS (w.statusAt 0) = true ∧ NT_SUCCESS (w.statusAt 1) = false ∧
      (create P w addr resultSize algName).2
        = .thrown (.runtime_error .BCryptGetProperty (w.statusAt 1)) ∧
      (Exn.runtime_error .BCryptGetProperty (w.statusAt 1)).kind = none ∧
      (create P w addr resultSize algName).1.log = w.log ++
        [.OpenAlgorithmProvider algName
          (if P.IsOSVersionAtLeast 6 2 0 then BCRYPT_HASH_REUSABLE_FLAG else 0)
          (w.statusAt 0) (w.issued + 1),
         .GetProperty (w.issued + 1) (w.statusAt 1) 0]) ∨
    (NT_SUCCESS (w.statusAt 0) = true ∧ NT_SUCCESS (w.statusAt 1) = true ∧
      NT_SUCCESS (w.statusAt 2) = false ∧
      (create P w addr resultSize algName).2 = .thrown .bad_alloc ∧
      Exn.bad_alloc.kind = some .AllocationError ∧
      (create P w addr resultSize algName).1.log = w.log ++
        [.OpenAlgorithmProvider algName
          (if P.IsOSVersionAtLeast 6 2 0 then BCRYPT_HASH_REUSABLE_FLAG else 0)
          (w.statusAt 0) (w.issued + 1),
         .GetProperty (w.issued + 1) (w.statusAt 1) (toULONG (P.objectLength algName)),
         .HeapAlloc (toULONG (P.objectLength algName)) 0]) ∨
    (NT_SUCCESS (w.statusAt 0) = true ∧ NT_SUCCESS (w.statusAt 1) = true ∧
      NT_SUCCESS (w.statusAt 2) = true ∧ NT_SUCCESS (w.statusAt 3) = false ∧
      (create P w addr resultSize algName).2
        = .thrown (.runtime_error .BCryptCreateHash (w.statusAt 3)) ∧
      (Exn.runtime_error .BCryptCreateHash (w.statusAt 3)).kind = some .ContextCreateError ∧
      (create P w addr resultSize algName).1.log = w.log ++
        [.OpenAlgorithmProvider algName
          (if P.IsOSVersionAtLeast 6 2 0 then BCRYPT_HASH_REUSABLE_FLAG else 0)
          (w.statusAt 0) (w.issued + 1),
         .GetProperty (w.issued + 1) (w.statusAt 1) (toULONG (P.objectLength algName)),
         .HeapAlloc (toULONG (P.objectLength algName)) (w.issued + 2),
         .CreateHash (w.issued + 1) (w.issued + 2) (toULONG (P.objectLength algName))
          (w.statusAt 3) 0]) ∨
    (NT_SUCCESS (w.statusAt 0) = true ∧ NT_SUCCESS (w.statusAt 1) = true ∧
      NT_SUCCESS (w.statusAt 2) = true ∧ NT_SUCCESS (w.statusAt 3) = true ∧
      (create P w addr resultSize algName).2
        = .returned
            { addr := addr, resultSize := resultSize, _algName := algName,
              _hAlg := w.issued + 1, _hHash := w.issued + 3, _pbHashObject := w.issued + 2,
              _reusable := P.IsOSVersionAtLeast 6 2 0 } ∧
      (create P w addr resultSize algName).1.log = w.log ++
        [.OpenAlgorithmProvider algName
          (if P.IsOSVersionAtLeast 6 2 0 then BCRYPT_HASH_REUSABLE_FLAG else 0)
          (w.statusAt 0) (w.issued + 1),
         .GetProperty (w.issued + 1) (w.statusAt 1) (toULONG (P.objectLength algName)),
         .HeapAlloc (toULONG (P.objectLength algName)) (w.issued + 2),
         .CreateHash (w.issued + 1) (w.issued + 2) (toULONG (P.objectLength algName))
          (w.statusAt 3) (w.issued + 3)]) := by
  obtain ⟨cw, co⟩ := create_eq P w addr resultSize algName
  rw [cw, co]
  cases h0 : NT_SUCCESS (w.statusAt 0)
  · obtain ⟨ho, _, _, hl⟩ := initialise_fail_open P
      { addr := addr, resultSize := resultSize, _algName := algName, _hAlg := 0, _hHash := 0,
        _pbHashObject := 0, _reusable := P.IsOSVersionAtLeast 6 2 0 } w h0
    exact Or.inl ⟨rfl, by rw [ho], rfl, hl⟩
  cases h1 : NT_SUCCESS (w.statusAt 1)
  · obtain ⟨ho, _, _, hl⟩ := initialise_fail_query P
      { addr := addr, resultSize := resultSize, _algName := algName, _hAlg := 0, _hHash := 0,
        _pbHashObject := 0, _reusable := P.IsOSVersionAtLeast 6 2 0 } w h0 h1
    exact Or.inr (Or.inl ⟨rfl, rfl, by rw [ho], rfl, hl⟩)
  cases h2 : NT_SUCCESS (w.statusAt 2)
  · obtain ⟨ho, _, _, hl⟩ := initialise_fail_alloc P
      { addr := addr, resultSize := resultSize, _algName := algName, _hAlg := 0, _hHash := 0,
        _pbHashObject := 0, _reusable := P.IsOSVersionAtLeast 6 2 0 } w h0 h1 h2
    exact Or.inr (Or.inr (Or.inl ⟨rfl, rfl, rfl, by rw [ho], rfl, hl⟩))
  cases h3 : NT_SUCCESS (w.statusAt 3)
  · obtain ⟨ho, _, _, hl⟩ := initialise_fail_context P
      { addr := addr, resultSize := resultSize, _algName := algName, _hAlg := 0, _hHash := 0,
        _pbHashObject := 0, _reusable := P.IsOSVersionAtLeast 6 2 0 } w h0 h1 h2 h3
    exact Or.inr (Or.inr (Or.inr (Or.inl ⟨rfl, rfl, rfl, rfl, by rw [ho], rfl, hl⟩)))
  · obtain ⟨ho, hs, _, hl⟩ := initialise_success P
      { addr := addr, resultSize := resultSize, _algName := algName, _hAlg := 0, _hHash := 0,
        _pbHashObject := 0, _reusable := P.IsOSVersionAtLeast 6 2 0 } w h0 h1 h2 h3
    exact Or.inr (Or.inr (Or.inr (Or.inr ⟨rfl, rfl, rfl, rfl, by rw [ho, hs], hl⟩)))

/-- C10 (the guard).  Whatever names are predefined, `__USE_CNG__` is not
defined when the guard `#ifdef __USE_CNG__` is reached, and the unit
contributes no declaration and includes no file. -/
theorem cng_backend_never_compiled (predefined : List String) :
    "__USE_CNG__" ∉ (preprocess predefined CryptCNG_head).defs ∧
    (preprocess predefined CryptCNG).decls = [] ∧
    (preprocess predefined CryptCNG).includes = [] := by
  have hsplit : preprocess predefined CryptCNG
      = CryptCNG_guarded.foldl PP.step (preprocess predefined CryptCNG_head) := by
    simp [preprocess, CryptCNG, List.foldl_append]
  have hhead : ∃ defs, "__USE_CNG__" ∉ defs ∧ preprocess predefined CryptCNG_head
      = { defs := defs, groups := [], includes := [], decls := [] } := by
    cases hb : PPExpr.eval predefined
        (.and (.defined "_WIN32") (.not (.defined "__USE_OPENSSL__")))
    · exact ⟨predefined.filter (fun d => decide (d ≠ "__USE_CNG__")),
        by simp [List.mem_filter],
        by simp [preprocess, CryptCNG_head, PP.step, PP.active, hb]⟩
    · exact ⟨("__USE_CNG__" :: predefined).filter (fun d => decide (d ≠ "__USE_CNG__")),
        by simp [List.mem_filter],
        by simp [preprocess, CryptCNG_head, PP.step, PP.active, hb]⟩
  obtain ⟨defs, hnot, hst⟩ := hhead
  rw [hsplit, hst]
  refine ⟨hnot, ?_, ?_⟩
  · simp [CryptCNG_guarded, PP.step, PP.active, hnot]
  · simp [CryptCNG_guarded, PP.step, PP.active, hnot]

end OpenRCT2
